import Mathlib

/-! # Exception dump handler (`arm9/source/system/xrq.c`)

A shallow embedding of the crash-report routine: the two range validators
`sp_dumpable` / `pc_dumpable`, the macro-generated hex dumpers
`XRQ_DumpData_u8/u16/u32`, and the report composition done by
`XRQ_DumpRegisters`.

Machine words are natural numbers; every 32-bit operation of the C code is
written with an explicit reduction modulo `2 ^ 32`.  Text is `List Char`.
-/

namespace XRQ

/-! ## Machine arithmetic -/

/-- The modulus of `u32` arithmetic. -/
def U32 : Nat := 2 ^ 32

/-- The C expression `a + b` on `u32` operands. -/
def u32add (a b : Nat) : Nat := (a + b) % U32

/-- The C expression `a - b` on `u32` operands (`a`, `b` below `2 ^ 32`). -/
def u32sub (a b : Nat) : Nat := (a + U32 - b) % U32

/-- `#define PC_DUMPRAD (0x10)` -/
def PC_DUMPRAD : Nat := 0x10

/-- `#define SP_DUMPLEN (0x80)` -/
def SP_DUMPLEN : Nat := 0x80

/-- The link-time region bounds used by the validators.  `stack_top` and
`stack_len` stand for the `memmap.h` constants `__STACK_TOP` and
`__STACK_LEN`; `code_start` and `code_end` for the addresses of the linker
symbols `__text_s` and `__text_e`.  All four are `u32` values. -/
structure Regions where
  stack_top : Nat
  stack_len : Nat
  code_start : Nat
  code_end : Nat
  deriving Repr, DecidableEq

/-! ## Range validators -/

/-- `static bool sp_dumpable(u32 sp, u32 *sp_lower, u32 *sp_upper)`:
`none` is the `false` return, `some (lower, upper)` is the `true` return
together with the two values stored through the pointers. -/
def sp_dumpable (r : Regions) (sp : Nat) : Option (Nat × Nat) :=
  if sp ≥ r.stack_top ∨ sp < u32sub r.stack_top r.stack_len then none
  else some (sp, min (u32add sp SP_DUMPLEN) r.stack_top)

/-- `static bool pc_dumpable(u32 pc, u32 *pc_lower, u32 *pc_upper)`. -/
def pc_dumpable (r : Regions) (pc : Nat) : Option (Nat × Nat) :=
  if pc ≥ r.code_end ∨ pc < r.code_start then none
  else some (max (u32sub pc PC_DUMPRAD) r.code_start,
             min (u32add pc PC_DUMPRAD) r.code_end)

/-! ## `sprintf` conversions

The C library is not part of the repository; the conversions used by
`xrq.c` are written out here with their standard meaning on the 32-bit
target (`unsigned long` and `int` are 32 bits wide). -/

/-- Digits of `n` in the given base, most significant first, without leading
zeros (`0` is the single digit `0`).  The first argument bounds the number
of digits produced. -/
def digitsAux (base : Nat) : Nat → Nat → List Nat
  | 0, _ => []
  | fuel + 1, n =>
    if n < base then [n] else digitsAux base fuel (n / base) ++ [n % base]

/-- Character of one digit, upper-case for the hexadecimal letters. -/
def digitChar (d : Nat) : Char :=
  ['0', '1', '2', '3', '4', '5', '6', '7', '8', '9',
   'A', 'B', 'C', 'D', 'E', 'F'].getD d '?'

/-- Left padding with `'0'` up to a minimal field width (the `0` flag). -/
def zeroPad (width : Nat) (ds : List Char) : List Char :=
  List.replicate (width - ds.length) '0' ++ ds

/-- Conversion `%lu` of a `u32` argument. -/
def fmt_lu (n : Nat) : List Char :=
  (digitsAux 10 32 (n % U32)).map digitChar

/-- Conversion `%0<width>lX` of a `u32` argument. -/
def fmt_0lX (width n : Nat) : List Char :=
  zeroPad width ((digitsAux 16 32 (n % U32)).map digitChar)

/-- Conversion `%02d` of a non-negative `int` argument. -/
def fmt_02d (n : Nat) : List Char :=
  zeroPad 2 ((digitsAux 10 32 (n % U32)).map digitChar)

/-! ## Memory and the hex dumpers -/

/-- Byte-addressed memory; a cell is read modulo 256. -/
abbrev Memory := Nat → Nat

/-- Byte addresses touched by reading a `size`-byte object at address `a`. -/
def objBytes (a size : Nat) : List Nat :=
  (List.range size).map (fun j => (a + j) % U32)

/-- Little-endian value of the `size`-byte object at address `a`
(`dl[i]` for `type *dl`, `size = sizeof(type)`). -/
def readLE (mem : Memory) (a : Nat) : Nat → Nat
  | 0 => 0
  | size + 1 => mem (a % U32) % 256 + 256 * readLE mem (a + 1) size

/-- State threaded through a dumper.  `out` is the text written from `c` up
to `b`; `reads` (byte addresses dereferenced) and `rows` (the value of `s`
at each iteration of the `while` loop) record what the loop did. -/
structure Dump where
  out : List Char
  reads : List Nat
  rows : List Nat
  deriving Repr, DecidableEq

/-- One iteration of the inner `for` loop:
`b += sprintf(b, "%0" #size "lX ", (u32)dl[i]);` with `dl = (type*)s`. -/
def dumpWord (tsize width : Nat) (mem : Memory) (s : Nat) (d : Dump) (i : Nat) : Dump :=
  { d with
    out := d.out ++ fmt_0lX width (readLE mem (s + i * tsize) tsize) ++ [' ']
    reads := d.reads ++ objBytes (s + i * tsize) tsize }

/-- Body of the `while` loop for the row starting at `s` (everything except
the update `s += 16`). -/
def dumpRow (tsize width : Nat) (mem : Memory) (s : Nat) (d : Dump) : Dump :=
  let d1 : Dump := { d with out := d.out ++ fmt_0lX 8 s ++ [':', ' '], rows := d.rows ++ [s] }
  let d2 : Dump := (List.range (16 / tsize)).foldl (dumpWord tsize width mem s) d1
  { d2 with out := d2.out ++ ['\n'] }

/-- The `while (s < e)` loop of `XRQ_DUMPDATAFUNC`.  The first argument
bounds the number of loop tests; `none` means the bound was reached with the
loop still running. -/
def dumpLoop (tsize width : Nat) (mem : Memory) : Nat → Nat → Nat → Dump → Option Dump
  | 0, _, _, _ => none
  | fuel + 1, s, e, d =>
    if s < e then dumpLoop tsize width mem fuel (u32add s 16) e (dumpRow tsize width mem s d)
    else some d

/-- `XRQ_DUMPDATAFUNC(type, size)`: the function
`XRQ_DumpData_##type(char *b, u32 s, u32 e)`, with `tsize = sizeof(type)` and
`width` the macro argument `size`.  The returned `out` has the length the C
function returns. -/
def XRQ_DUMPDATAFUNC (tsize width : Nat) (mem : Memory) (fuel s e : Nat) : Option Dump :=
  dumpLoop tsize width mem fuel s e ⟨[], [], []⟩

/-- `XRQ_DUMPDATAFUNC(u8,  2)` -/
def XRQ_DumpData_u8 := XRQ_DUMPDATAFUNC 1 2

/-- `XRQ_DUMPDATAFUNC(u16, 4)` -/
def XRQ_DumpData_u16 := XRQ_DUMPDATAFUNC 2 4

/-- `XRQ_DUMPDATAFUNC(u32, 8)` -/
def XRQ_DumpData_u32 := XRQ_DUMPDATAFUNC 4 8

/-! ## The report -/

/-- `static const char *XRQ_Name[]` -/
def XRQ_Name : List (List Char) :=
  ["Reset".toList, "Undefined".toList, "SWI".toList, "Prefetch Abort".toList,
   "Data Abort".toList, "Reserved".toList, "IRQ".toList, "FIQ".toList]

/-- Modelled from the spec: the macro `SR_THUMB` of `arm.h`, which is not part
of the sources at hand.  The specification calls it the
narrow-instruction-mode bit of the status word; on the ARM architecture that
is the T bit of the CPSR, bit 5. -/
def SR_THUMB : Nat := 0x20

/-- The `u32` constant `~0xF`. -/
def MASK_F : Nat := 0xFFFFFFF0

/-- The fields of `DsTime` (`rtc.h`) that the handler reads; each is a `u8`
holding two BCD digits and is read modulo 256. -/
structure DsTime where
  bcd_Y : Nat
  bcd_M : Nat
  bcd_D : Nat
  bcd_h : Nat
  bcd_m : Nat
  bcd_s : Nat
  deriving Repr, DecidableEq

/-- Build-time string macros.  `FLAVOR` and `VERSION` are pasted into a format
string and are taken to hold no conversion specification. -/
structure Build where
  FLAVOR : List Char
  VERSION : List Char
  OUTPUT_PATH : List Char
  deriving Repr, DecidableEq

/-- The `(u32)` cast of a `u8` field. -/
def u8 (x : Nat) : Nat := x % 256

/-- One pass of the register loop:
`sprintf(wstr, "R%02d: %08lX | R%02d: %08lX\n", i, regs[i], i+1, regs[i+1])`. -/
def regLine (regs : Nat → Nat) (w : List Char) (i : Nat) : List Char :=
  w ++ ['R'] ++ fmt_02d i ++ ": ".toList ++ fmt_0lX 8 (regs i) ++ " | R".toList
    ++ fmt_02d (i + 1) ++ ": ".toList ++ fmt_0lX 8 (regs (i + 1)) ++ ['\n']

/-- The loop `for (int i = 0; i < 16; i += 2)`; the first argument counts the
remaining tests of the loop condition. -/
def regLoop (regs : Nat → Nat) : Nat → Nat → List Char → List Char
  | 0, _, w => w
  | n + 1, i, w => if i < 16 then regLoop regs n (i + 2) (regLine regs w i) else w

/-- Lines 78 to 87: header and register bank, appended to `dumpstr`. -/
def dumpHeader (bld : Build) (t : DsTime) (xrq : Nat) (regs : Nat → Nat) : List Char :=
  let w : List Char := []
  let w := w ++ "Exception: ".toList ++ XRQ_Name.getD (xrq &&& 7) [] ++ " (".toList
             ++ fmt_lu xrq ++ ")\n".toList
  let w := w ++ bld.FLAVOR ++ [' '] ++ bld.VERSION ++ ['\n']
  let w := w ++ "20".toList ++ fmt_0lX 2 (u8 t.bcd_Y) ++ ['-'] ++ fmt_0lX 2 (u8 t.bcd_M)
             ++ ['-'] ++ fmt_0lX 2 (u8 t.bcd_D) ++ [' '] ++ fmt_0lX 2 (u8 t.bcd_h)
             ++ [':'] ++ fmt_0lX 2 (u8 t.bcd_m) ++ [':'] ++ fmt_0lX 2 (u8 t.bcd_s)
             ++ "\n \n".toList
  let w := regLoop regs 9 0 w
  w ++ "CPSR: ".toList ++ fmt_0lX 8 (regs 16) ++ "\n\n".toList

/-- Lines 99 to 105: the stack section.  Takes and returns the text written
so far and the byte addresses read so far. -/
def dumpStack (r : Regions) (mem : Memory) (fuel : Nat) (regs : Nat → Nat)
    (st : List Char × List Nat) : Option (List Char × List Nat) :=
  let sp := regs 13 &&& MASK_F
  match sp_dumpable r sp with
  | some (sp_lower, sp_upper) =>
    match XRQ_DumpData_u8 mem fuel sp_lower sp_upper with
    | some d => some (st.1 ++ "Stack:\n".toList ++ d.out ++ ['\n'], st.2 ++ d.reads)
    | none => none
  | none => some st

/-- Lines 107 to 116: the code section. -/
def dumpCode (r : Regions) (mem : Memory) (fuel : Nat) (regs : Nat → Nat)
    (st : List Char × List Nat) : Option (List Char × List Nat) :=
  let pc := regs 15 &&& MASK_F
  match pc_dumpable r pc with
  | some (pc_lower, pc_upper) =>
    let w := st.1 ++ "Code:\n".toList
    match (if regs 16 &&& SR_THUMB ≠ 0 then XRQ_DumpData_u16 mem fuel pc_lower pc_upper
           else XRQ_DumpData_u32 mem fuel pc_lower pc_upper) with
    | some d => some (w ++ d.out, st.2 ++ d.reads)
    | none => none
  | none => some st

/-- What `XRQ_DumpRegisters` hands to its collaborators. -/
structure Report where
  /-- Contents of `dumpstr` when it is drawn on the main screen (line 97). -/
  screen : List Char
  /-- Contents of `dumpstr` after the code section, without the final NUL;
  this is the text given to the QR encoder and to `FileSetData`. -/
  dumpstr : List Char
  /-- The file name built by `snprintf(path, 64, ...)`. -/
  path : List Char
  /-- The length `wstr - dumpstr` given to `FileSetData`. -/
  written : Nat
  /-- Byte addresses dereferenced by the dumpers, in order. -/
  reads : List Nat
  deriving Repr, DecidableEq

/-- `void XRQ_DumpRegisters(u32 xrq, u32 *regs)`, up to the call of
`FileSetData`.  `regs i` is `regs[i]`; the timestamp is the value stored by
`get_dstime`.  `fuel` bounds the loop tests of each dumper; the result is
`none` when a dumper does not finish within the bound. -/
def XRQ_DumpRegisters (r : Regions) (bld : Build) (t : DsTime) (mem : Memory)
    (fuel : Nat) (xrq : Nat) (regs : Nat → Nat) : Option Report :=
  let w := dumpHeader bld t xrq regs
  match dumpStack r mem fuel regs (w, []) with
  | none => none
  | some st1 =>
    match dumpCode r mem fuel regs st1 with
    | none => none
    | some st2 =>
      let path := (bld.OUTPUT_PATH ++ "/exception_dump_".toList
        ++ fmt_0lX 2 (u8 t.bcd_Y) ++ fmt_0lX 2 (u8 t.bcd_M) ++ fmt_0lX 2 (u8 t.bcd_D)
        ++ fmt_0lX 2 (u8 t.bcd_h) ++ fmt_0lX 2 (u8 t.bcd_m) ++ fmt_0lX 2 (u8 t.bcd_s)
        ++ ".txt".toList).take 63
      some { screen := w, dumpstr := st2.1, path := path,
             written := st2.1.length, reads := st2.2 }

/-! ## Reference descriptions of the output

The definitions below describe the text and the loop behaviour in closed
form; the theorems compare the functions above with them. -/

/-- Declared size of `char dumpstr[2048]`. -/
def DUMPSTR_SIZE : Nat := 2048

/-- Number of 16-byte steps needed to get from `s` to `e` or beyond: the
quotient `(e - s) / 16` rounded up (zero when `e ≤ s`). -/
def rowCount (s e : Nat) : Nat := (e - s + 15) / 16

/-- Start addresses `s, s + 16, s + 32, ...` of the rows of a dump from `s`
to `e`. -/
def rowAddrs (s e : Nat) : List Nat :=
  (List.range (rowCount s e)).map (fun k => s + 16 * k)

/-- The `w` low hexadecimal digits of `n`, most significant first, upper
case: always exactly `w` characters, and all of `n` when `n < 16 ^ w`. -/
def fixedHex : Nat → Nat → List Char
  | 0, _ => []
  | w + 1, n => fixedHex w (n / 16) ++ [digitChar (n % 16)]

/-- One dump row for words of `tsize` bytes starting at address `a`: the
address in 8 digits, a colon and a space, then `16 / tsize` words of
`2 * tsize` digits read at `a, a + tsize, ...`, each followed by a space,
then a newline. -/
def rowText (tsize : Nat) (mem : Memory) (a : Nat) : List Char :=
  fixedHex 8 a ++ [':', ' ']
    ++ (List.range (16 / tsize)).flatMap
        (fun i => fixedHex (2 * tsize) (readLE mem (a + i * tsize) tsize) ++ [' '])
    ++ ['\n']

/-- Byte addresses read for the row starting at `a`. -/
def rowReads (tsize : Nat) (a : Nat) : List Nat :=
  (List.range (16 / tsize)).flatMap (fun i => objBytes (a + i * tsize) tsize)

/-- The rows of a whole dump from `s` to `e`. -/
def dumpText (tsize : Nat) (mem : Memory) (s e : Nat) : List Char :=
  (rowAddrs s e).flatMap (rowText tsize mem)

/-- Header: exception line, build line, timestamp line, separator line. -/
def headerText (bld : Build) (t : DsTime) (xrq : Nat) : List Char :=
  "Exception: ".toList ++ XRQ_Name.getD (xrq &&& 7) [] ++ " (".toList
    ++ fmt_lu xrq ++ ")\n".toList
    ++ bld.FLAVOR ++ [' '] ++ bld.VERSION ++ ['\n']
    ++ "20".toList ++ fmt_0lX 2 (u8 t.bcd_Y) ++ ['-'] ++ fmt_0lX 2 (u8 t.bcd_M)
    ++ ['-'] ++ fmt_0lX 2 (u8 t.bcd_D) ++ [' '] ++ fmt_0lX 2 (u8 t.bcd_h)
    ++ [':'] ++ fmt_0lX 2 (u8 t.bcd_m) ++ [':'] ++ fmt_0lX 2 (u8 t.bcd_s)
    ++ "\n \n".toList

/-- Line `j` of the register bank, showing registers `2 * j` and `2 * j + 1`. -/
def registerLine (regs : Nat → Nat) (j : Nat) : List Char :=
  ['R'] ++ fmt_02d (2 * j) ++ ": ".toList ++ fmt_0lX 8 (regs (2 * j)) ++ " | R".toList
    ++ fmt_02d (2 * j + 1) ++ ": ".toList ++ fmt_0lX 8 (regs (2 * j + 1)) ++ ['\n']

/-- Register section: eight register lines, then the status word. -/
def registerText (regs : Nat → Nat) : List Char :=
  (List.range 8).flatMap (registerLine regs)
    ++ "CPSR: ".toList ++ fmt_0lX 8 (regs 16) ++ "\n\n".toList

/-- Stack section: empty without a stack window; otherwise the label line,
the byte-wise rows of the window and an empty line. -/
def stackSection (r : Regions) (mem : Memory) (regs : Nat → Nat) : List Char :=
  match sp_dumpable r (regs 13 &&& MASK_F) with
  | none => []
  | some (lo, hi) => "Stack:\n".toList ++ dumpText 1 mem lo hi ++ ['\n']

/-- Code section: empty without a code window; otherwise the label line and
the rows of the window, in 16-bit words when the Thumb bit of the status word
is set and in 32-bit words otherwise. -/
def codeSection (r : Regions) (mem : Memory) (regs : Nat → Nat) : List Char :=
  match pc_dumpable r (regs 15 &&& MASK_F) with
  | none => []
  | some (lo, hi) =>
    "Code:\n".toList
      ++ dumpText (if regs 16 &&& SR_THUMB ≠ 0 then 2 else 4) mem lo hi

/-- First line of the header: exception name and numeric code. -/
def exceptionLine (xrq : Nat) : List Char :=
  "Exception: ".toList ++ XRQ_Name.getD (xrq &&& 7) [] ++ " (".toList
    ++ fmt_lu xrq ++ ")\n".toList

/-- Second line of the header: the build identity. -/
def buildLine (bld : Build) : List Char :=
  bld.FLAVOR ++ [' '] ++ bld.VERSION ++ ['\n']

/-- A byte is valid BCD when both of its nibbles are decimal digits. -/
def validBCD (b : Nat) : Prop := b < 256 ∧ b / 16 ≤ 9 ∧ b % 16 ≤ 9

instance (b : Nat) : Decidable (validBCD b) := by
  unfold validBCD
  infer_instance

/-- A time stamp is valid when its six fields are valid BCD bytes. -/
def validTime (t : DsTime) : Prop :=
  validBCD t.bcd_Y ∧ validBCD t.bcd_M ∧ validBCD t.bcd_D
    ∧ validBCD t.bcd_h ∧ validBCD t.bcd_m ∧ validBCD t.bcd_s

instance (t : DsTime) : Decidable (validTime t) := by
  unfold validTime
  infer_instance

/-- The number a valid BCD byte stands for: tens in the high nibble, units in
the low nibble. -/
def bcdValue (b : Nat) : Nat := 10 * (b / 16) + b % 16

/-- The two decimal digits held by a BCD byte: tens digit, then units digit. -/
def bcdText (b : Nat) : List Char := [digitChar (b / 16), digitChar (b % 16)]

/-- The time stamp in the form `20YY-MM-DD HH:MM:SS`. -/
def timestampText (t : DsTime) : List Char :=
  "20".toList ++ bcdText t.bcd_Y ++ ['-'] ++ bcdText t.bcd_M ++ ['-'] ++ bcdText t.bcd_D
    ++ [' '] ++ bcdText t.bcd_h ++ [':'] ++ bcdText t.bcd_m ++ [':'] ++ bcdText t.bcd_s

/-- A number below 100 in two decimal digits. -/
def dec2 (n : Nat) : List Char := [digitChar (n / 10), digitChar (n % 10)]

/-- Line `j` of the register bank with every field spelled out: the labels
`R(2j)` and `R(2j+1)` in two decimal digits, the values in 8 hexadecimal
digits. -/
def registerRow (regs : Nat → Nat) (j : Nat) : List Char :=
  ['R'] ++ dec2 (2 * j) ++ [':', ' '] ++ fixedHex 8 (regs (2 * j) % U32)
    ++ [' ', '|', ' ', 'R'] ++ dec2 (2 * j + 1) ++ [':', ' ']
    ++ fixedHex 8 (regs (2 * j + 1) % U32) ++ ['\n']

/-- The status line closing the register section. -/
def statusRow (regs : Nat → Nat) : List Char :=
  "CPSR: ".toList ++ fixedHex 8 (regs 16 % U32) ++ ['\n', '\n']

/-- The file name `<output_dir>/exception_dump_<YYMMDDHHMMSS>.txt`, two
hexadecimal digits per time stamp field. -/
def pathText (out : List Char) (t : DsTime) : List Char :=
  out ++ "/exception_dump_".toList
    ++ fixedHex 2 (u8 t.bcd_Y) ++ fixedHex 2 (u8 t.bcd_M) ++ fixedHex 2 (u8 t.bcd_D)
    ++ fixedHex 2 (u8 t.bcd_h) ++ fixedHex 2 (u8 t.bcd_m) ++ fixedHex 2 (u8 t.bcd_s)
    ++ ".txt".toList

/-- Decimal digits of a number, most significant first (`0` is the single
digit `0`). -/
def decimalDigits (n : Nat) : List Nat :=
  if n = 0 then [0] else (Nat.digits 10 n).reverse

/-! ## Arithmetic helpers -/

lemma u32sub_of_le {a b : Nat} (ha : a < U32) (hb : b ≤ a) : u32sub a b = a - b := by
  unfold u32sub U32 at *
  omega

lemma u32add_of_lt {a b : Nat} (h : a + b < U32) : u32add a b = a + b := by
  unfold u32add U32 at *
  omega

lemma sp_dumpable_eq_some {r : Regions} {sp lo hi : Nat}
    (h : sp_dumpable r sp = some (lo, hi)) :
    sp < r.stack_top ∧ u32sub r.stack_top r.stack_len ≤ sp ∧ lo = sp
      ∧ hi = min (u32add sp SP_DUMPLEN) r.stack_top := by
  unfold sp_dumpable at h
  split_ifs at h with hc
  simp only [Option.some.injEq, Prod.mk.injEq] at h
  omega

lemma pc_dumpable_eq_some {r : Regions} {pc lo hi : Nat}
    (h : pc_dumpable r pc = some (lo, hi)) :
    pc < r.code_end ∧ r.code_start ≤ pc ∧ lo = max (u32sub pc PC_DUMPRAD) r.code_start
      ∧ hi = min (u32add pc PC_DUMPRAD) r.code_end := by
  unfold pc_dumpable at h
  split_ifs at h with hc
  simp only [Option.some.injEq, Prod.mk.injEq] at h
  omega

/-! ## Range validators: theorems -/

/-- C1: for a stack region with `stack_len ≤ stack_top`, `sp_dumpable`
returns a window exactly when `stack_top - stack_len ≤ sp < stack_top`, and
returns none exactly when that fails. -/
theorem sp_dumpable_accepts_iff (r : Regions) (sp : Nat)
    (htop : r.stack_top < U32) (hlen : r.stack_len ≤ r.stack_top) :
    ((sp_dumpable r sp).isSome = true ↔
        (r.stack_top - r.stack_len ≤ sp ∧ sp < r.stack_top))
    ∧ (sp_dumpable r sp = none ↔
        ¬ (r.stack_top - r.stack_len ≤ sp ∧ sp < r.stack_top)) := by
  have hs := u32sub_of_le htop hlen
  unfold sp_dumpable
  rw [hs]
  constructor
  · split_ifs with hc
    · simp only [Option.isSome_none, Bool.false_eq_true, false_iff]
      omega
    · simp only [Option.isSome_some, true_iff]
      omega
  · split_ifs with hc
    · simp only [true_iff]
      omega
    · simp only [false_iff, not_not, reduceCtorEq]
      omega

theorem sp_dumpable_accepts_iff_witness :
    ((sp_dumpable ⟨0x08100000, 0x1000, 0x08000000, 0x08040000⟩ 0x080FFF80).isSome = true ↔
        (0x08100000 - 0x1000 ≤ 0x080FFF80 ∧ 0x080FFF80 < 0x08100000))
    ∧ (sp_dumpable ⟨0x08100000, 0x1000, 0x08000000, 0x08040000⟩ 0x080FFF80 = none ↔
        ¬ (0x08100000 - 0x1000 ≤ 0x080FFF80 ∧ 0x080FFF80 < 0x08100000)) :=
  sp_dumpable_accepts_iff ⟨0x08100000, 0x1000, 0x08000000, 0x08040000⟩ 0x080FFF80
    (by decide) (by decide)

/-- C2: `pc_dumpable` returns a window exactly when
`code_start ≤ pc < code_end`, and returns none exactly when that fails. -/
theorem pc_dumpable_accepts_iff (r : Regions) (pc : Nat) :
    ((pc_dumpable r pc).isSome = true ↔ (r.code_start ≤ pc ∧ pc < r.code_end))
    ∧ (pc_dumpable r pc = none ↔ ¬ (r.code_start ≤ pc ∧ pc < r.code_end)) := by
  unfold pc_dumpable
  constructor
  · split_ifs with hc
    · simp only [Option.isSome_none, Bool.false_eq_true, false_iff]
      omega
    · simp only [Option.isSome_some, true_iff]
      omega
  · split_ifs with hc
    · simp only [true_iff]
      omega
    · simp only [false_iff, not_not, reduceCtorEq]
      omega

/-- C3: when `sp_dumpable` returns a window, its lower bound is `sp`, its
upper bound is the minimum of the 32-bit sum `sp + 0x80` and `stack_top`
(the plain sum when that does not exceed 32 bits), the upper bound is at most
`stack_top`, and `upper - lower` is at most `SP_DUMPLEN`, both as a
difference of numbers and as a 32-bit difference. -/
theorem sp_dumpable_window (r : Regions) (sp lo hi : Nat) (hsp : sp < U32)
    (h : sp_dumpable r sp = some (lo, hi)) :
    lo = sp
    ∧ hi = min (u32add sp SP_DUMPLEN) r.stack_top
    ∧ (sp + SP_DUMPLEN < U32 → hi = min (sp + SP_DUMPLEN) r.stack_top)
    ∧ hi ≤ r.stack_top
    ∧ hi - lo ≤ SP_DUMPLEN
    ∧ (hi : Int) - (lo : Int) ≤ (SP_DUMPLEN : Int)
    ∧ u32sub hi lo ≤ SP_DUMPLEN := by
  obtain ⟨h1, _, h3, h4⟩ := sp_dumpable_eq_some h
  subst h3
  unfold u32add u32sub SP_DUMPLEN U32 at *
  refine ⟨rfl, h4, ?_, ?_, ?_, ?_, ?_⟩ <;> omega

theorem sp_dumpable_window_witness :
    0x080FFFC0 = 0x080FFFC0
    ∧ 0x08100000 = min (u32add 0x080FFFC0 SP_DUMPLEN) 0x08100000
    ∧ (0x080FFFC0 + SP_DUMPLEN < U32 → 0x08100000 = min (0x080FFFC0 + SP_DUMPLEN) 0x08100000)
    ∧ 0x08100000 ≤ 0x08100000
    ∧ 0x08100000 - 0x080FFFC0 ≤ SP_DUMPLEN
    ∧ ((0x08100000 : Nat) : Int) - ((0x080FFFC0 : Nat) : Int) ≤ (SP_DUMPLEN : Int)
    ∧ u32sub 0x08100000 0x080FFFC0 ≤ SP_DUMPLEN :=
  sp_dumpable_window ⟨0x08100000, 0x1000, 0x08000000, 0x08040000⟩
    0x080FFFC0 0x080FFFC0 0x08100000 (by decide) (by decide)

/-- C4: when `pc_dumpable` returns a window, the window does not leave the
code image: `code_start ≤ lower` and `upper ≤ code_end`, wherever `pc` lies
in the image. -/
theorem pc_dumpable_window_in_image (r : Regions) (pc lo hi : Nat)
    (h : pc_dumpable r pc = some (lo, hi)) :
    r.code_start ≤ lo ∧ hi ≤ r.code_end := by
  obtain ⟨_, _, h3, h4⟩ := pc_dumpable_eq_some h
  omega

theorem pc_dumpable_window_in_image_witness :
    0x08000000 ≤ 0x08000000 ∧ 0x08000018 ≤ 0x08040000 :=
  pc_dumpable_window_in_image ⟨0x08100000, 0x1000, 0x08000000, 0x08040000⟩
    0x08000008 0x08000000 0x08000018 (by decide)

/-- C5 (as stated, refuted): with `stack_top = 0xFFFFFFFF` the 32-bit sum
`sp + 0x80` wraps for `sp = 0xFFFFFFF0` and the window's upper bound `0x70`
is below its lower bound; with `code_start = 0` the 32-bit difference
`pc - 0x10` wraps for `pc = 0` and the lower bound `0xFFFFFFF0` is above the
upper bound `0x10`. -/
theorem window_order_counterexample :
    sp_dumpable ⟨0xFFFFFFFF, 0x1000, 0, 0x40000⟩ 0xFFFFFFF0 = some (0xFFFFFFF0, 0x70)
    ∧ ¬ (0xFFFFFFF0 ≤ 0x70)
    ∧ pc_dumpable ⟨0xFFFFFFFF, 0x1000, 0, 0x40000⟩ 0 = some (0xFFFFFFF0, 0x10)
    ∧ ¬ (0xFFFFFFF0 ≤ 0x10) := by
  decide

/-- C5 (amended): a window returned by `sp_dumpable` has `lower ≤ upper`
exactly when `sp + 0x80` stays below `2 ^ 32`; a window returned by
`pc_dumpable` has `lower ≤ upper` exactly when `0x10 ≤ pc` and `pc + 0x10`
stays below `2 ^ 32`.  In particular both orders hold for every address when
`stack_top + 0x80 ≤ 2 ^ 32`, `0x10 ≤ code_start` and
`code_end + 0x10 ≤ 2 ^ 32`. -/
theorem window_order_iff_no_wrap (r : Regions) (a lo hi : Nat) (ha : a < U32) :
    (sp_dumpable r a = some (lo, hi) → (lo ≤ hi ↔ a + SP_DUMPLEN < U32))
    ∧ (pc_dumpable r a = some (lo, hi) →
        (lo ≤ hi ↔ (PC_DUMPRAD ≤ a ∧ a + PC_DUMPRAD < U32)))
    ∧ (r.stack_top + SP_DUMPLEN ≤ U32 → sp_dumpable r a = some (lo, hi) → lo ≤ hi)
    ∧ (PC_DUMPRAD ≤ r.code_start → r.code_end + PC_DUMPRAD ≤ U32 →
        pc_dumpable r a = some (lo, hi) → lo ≤ hi) := by
  refine ⟨?_, ?_, ?_, ?_⟩
  · intro h
    obtain ⟨h1, _, h3, h4⟩ := sp_dumpable_eq_some h
    unfold u32add u32sub SP_DUMPLEN U32 at *
    omega
  · intro h
    obtain ⟨h1, h2, h3, h4⟩ := pc_dumpable_eq_some h
    unfold u32add u32sub PC_DUMPRAD U32 at *
    omega
  · intro hr h
    obtain ⟨h1, _, h3, h4⟩ := sp_dumpable_eq_some h
    unfold u32add u32sub SP_DUMPLEN U32 at *
    omega
  · intro hr1 hr2 h
    obtain ⟨h1, h2, h3, h4⟩ := pc_dumpable_eq_some h
    unfold u32add u32sub PC_DUMPRAD U32 at *
    omega

theorem window_order_iff_no_wrap_witness :
    (0x080FFFC0 ≤ 0x08100000 ↔ 0x080FFFC0 + SP_DUMPLEN < U32)
    ∧ (0x08000010 ≤ 0x08000030 ↔ (PC_DUMPRAD ≤ 0x08000020 ∧ 0x08000020 + PC_DUMPRAD < U32))
    ∧ 0x080FFFC0 ≤ 0x08100000
    ∧ 0x08000010 ≤ 0x08000030 :=
  ⟨(window_order_iff_no_wrap ⟨0x08100000, 0x1000, 0x08000000, 0x08000040⟩
      0x080FFFC0 0x080FFFC0 0x08100000 (by decide)).1 (by decide),
   (window_order_iff_no_wrap ⟨0x08100000, 0x1000, 0x08000000, 0x08000040⟩
      0x08000020 0x08000010 0x08000030 (by decide)).2.1 (by decide),
   (window_order_iff_no_wrap ⟨0x08100000, 0x1000, 0x08000000, 0x08000040⟩
      0x080FFFC0 0x080FFFC0 0x08100000 (by decide)).2.2.1 (by decide) (by decide),
   (window_order_iff_no_wrap ⟨0x08100000, 0x1000, 0x08000000, 0x08000040⟩
      0x08000020 0x08000010 0x08000030 (by decide)).2.2.2 (by decide) (by decide)
      (by decide)⟩

/-! ## Number formatting: lemmas -/

lemma fixedHex_length (w n : Nat) : (fixedHex w n).length = w := by
  induction w generalizing n with
  | zero => rfl
  | succ w ih => simp [fixedHex, ih]

lemma fixedHex_zero (w : Nat) : fixedHex w 0 = List.replicate w '0' := by
  induction w with
  | zero => rfl
  | succ w ih =>
    simp only [fixedHex, Nat.zero_div, Nat.zero_mod, ih]
    rw [List.replicate_succ', digitChar]
    rfl

lemma digitsAux_length_le (base : Nat) :
    ∀ (k fuel n : Nat), 1 ≤ k → n < base ^ k → (digitsAux base fuel n).length ≤ k := by
  intro k
  induction k with
  | zero => intro fuel n h; omega
  | succ k ih =>
    intro fuel n _ hn
    cases fuel with
    | zero => simp [digitsAux]
    | succ fuel =>
      unfold digitsAux
      split_ifs with hlt
      · simp
      · have hk : 1 ≤ k := by
          rcases Nat.eq_zero_or_pos k with h0 | h0
          · subst h0
            simp at hn
            omega
          · exact h0
        have hdiv : n / base < base ^ k := by
          apply Nat.div_lt_of_lt_mul
          rw [pow_succ] at hn
          rw [Nat.mul_comm]
          exact hn
        have := ih fuel (n / base) hk hdiv
        simp only [List.length_append, List.length_singleton]
        omega

lemma zeroPad_digits_eq_fixedHex :
    ∀ (k fuel n : Nat), 1 ≤ k → k ≤ fuel → n < 16 ^ k →
      zeroPad k ((digitsAux 16 fuel n).map digitChar) = fixedHex k n := by
  intro k
  induction k with
  | zero => intro fuel n h; omega
  | succ k ih =>
    intro fuel n _ hf hn
    cases fuel with
    | zero => omega
    | succ fuel =>
      unfold digitsAux
      split_ifs with hlt
      · have h1 : n / 16 = 0 := Nat.div_eq_of_lt hlt
        have h2 : n % 16 = n := Nat.mod_eq_of_lt hlt
        simp only [fixedHex, h1, h2, fixedHex_zero, zeroPad, List.map_cons, List.map_nil,
          List.length_singleton, Nat.add_sub_cancel]
      · have hk : 1 ≤ k := by
          rcases Nat.eq_zero_or_pos k with h0 | h0
          · subst h0
            simp at hn
            omega
          · exact h0
        have hdiv : n / 16 < 16 ^ k := by
          apply Nat.div_lt_of_lt_mul
          rw [pow_succ] at hn
          rw [Nat.mul_comm]
          exact hn
        have hih := ih fuel (n / 16) hk (by omega) hdiv
        simp only [fixedHex, ← hih, zeroPad, List.map_append, List.map_cons, List.map_nil,
          List.length_append, List.length_singleton, List.length_map, List.append_assoc]
        congr 2
        omega

lemma fmt_0lX_eq_fixedHex (k n : Nat) (hk : 1 ≤ k) (hk8 : k ≤ 8) (hn : n < 16 ^ k) :
    fmt_0lX k n = fixedHex k n := by
  have h16 : (16 : Nat) ^ k ≤ 16 ^ 8 := Nat.pow_le_pow_right (by norm_num) hk8
  have hU : n % U32 = n := by
    apply Nat.mod_eq_of_lt
    have : (16 : Nat) ^ 8 = U32 := by norm_num [U32]
    omega
  unfold fmt_0lX
  rw [hU]
  exact zeroPad_digits_eq_fixedHex k 32 n hk (by omega) hn

lemma fmt_0lX_8 (n : Nat) : fmt_0lX 8 n = fixedHex 8 (n % U32) := by
  have hlt : n % U32 < 16 ^ 8 := by
    have : (16 : Nat) ^ 8 = U32 := by norm_num [U32]
    rw [this]
    exact Nat.mod_lt _ (by norm_num [U32])
  have h := fmt_0lX_eq_fixedHex 8 (n % U32) (by norm_num) (by norm_num) hlt
  unfold fmt_0lX at h ⊢
  rwa [Nat.mod_mod] at h

lemma readLE_lt (mem : Memory) : ∀ (size a : Nat), readLE mem a size < 256 ^ size := by
  intro size
  induction size with
  | zero => intro a; simp [readLE]
  | succ size ih =>
    intro a
    have h1 := ih (a + 1)
    have h2 : mem (a % U32) % 256 < 256 := Nat.mod_lt _ (by norm_num)
    unfold readLE
    rw [pow_succ]
    omega

/-! ## The hex dumpers: lemmas -/

lemma foldl_dumpWord (tsize width : Nat) (mem : Memory) (s : Nat) :
    ∀ (l : List Nat) (d : Dump),
      l.foldl (dumpWord tsize width mem s) d =
        ⟨d.out ++ l.flatMap
            (fun i => fmt_0lX width (readLE mem (s + i * tsize) tsize) ++ [' ']),
         d.reads ++ l.flatMap (fun i => objBytes (s + i * tsize) tsize),
         d.rows⟩ := by
  intro l
  induction l with
  | nil => intro d; simp
  | cons i l ih =>
    intro d
    rw [List.foldl_cons, ih]
    simp [dumpWord, List.flatMap_cons, List.append_assoc]

lemma dumpRow_eq (tsize : Nat) (mem : Memory) (s : Nat) (d : Dump)
    (ht : tsize = 1 ∨ tsize = 2 ∨ tsize = 4) (hs : s < U32) :
    dumpRow tsize (2 * tsize) mem s d =
      ⟨d.out ++ rowText tsize mem s, d.reads ++ rowReads tsize s, d.rows ++ [s]⟩ := by
  have haddr : fmt_0lX 8 s = fixedHex 8 s := by
    rw [fmt_0lX_8, Nat.mod_eq_of_lt hs]
  have hword : ∀ a, fmt_0lX (2 * tsize) (readLE mem a tsize)
      = fixedHex (2 * tsize) (readLE mem a tsize) := by
    intro a
    apply fmt_0lX_eq_fixedHex
    · omega
    · omega
    · have h := readLE_lt mem tsize a
      have e : (16 : Nat) ^ (2 * tsize) = 256 ^ tsize := by
        rw [pow_mul]
        norm_num
      rw [e]
      exact h
  unfold dumpRow
  simp only [foldl_dumpWord, haddr, hword, rowText, rowReads, List.append_assoc]

lemma rowCount_eq_zero {s e : Nat} (h : e ≤ s) : rowCount s e = 0 := by
  unfold rowCount
  omega

lemma rowAddrs_of_le {s e : Nat} (h : e ≤ s) : rowAddrs s e = [] := by
  unfold rowAddrs
  rw [rowCount_eq_zero h]
  rfl

lemma rowCount_step {s e : Nat} (h : s < e) : rowCount s e = rowCount (s + 16) e + 1 := by
  unfold rowCount
  omega

lemma rowAddrs_cons {s e : Nat} (h : s < e) : rowAddrs s e = s :: rowAddrs (s + 16) e := by
  unfold rowAddrs
  rw [rowCount_step h, List.range_succ_eq_map]
  simp only [List.map_cons, Nat.mul_zero, Nat.add_zero, List.map_map, List.cons.injEq, true_and]
  apply List.map_congr_left
  intro k _
  simp only [Function.comp_apply, Nat.succ_eq_add_one]
  omega

lemma rowAddrs_length (s e : Nat) : (rowAddrs s e).length = rowCount s e := by
  simp [rowAddrs]

lemma dumpLoop_eq (tsize : Nat) (mem : Memory) (ht : tsize = 1 ∨ tsize = 2 ∨ tsize = 4)
    (e : Nat) :
    ∀ (n fuel s : Nat) (d : Dump), rowCount s e = n → n < fuel → s + 16 * n < U32 →
      dumpLoop tsize (2 * tsize) mem fuel s e d =
        some ⟨d.out ++ (rowAddrs s e).flatMap (rowText tsize mem),
              d.reads ++ (rowAddrs s e).flatMap (rowReads tsize),
              d.rows ++ rowAddrs s e⟩ := by
  intro n
  induction n with
  | zero =>
    intro fuel s d hn hf _
    have hle : e ≤ s := by
      unfold rowCount at hn
      omega
    cases fuel with
    | zero => omega
    | succ fuel =>
      unfold dumpLoop
      rw [if_neg (by omega), rowAddrs_of_le hle]
      simp
  | succ n ih =>
    intro fuel s d hn hf hw
    have hlt : s < e := by
      by_contra hc
      rw [rowCount_eq_zero (by omega)] at hn
      omega
    cases fuel with
    | zero => omega
    | succ fuel =>
      have hn2 : rowCount (s + 16) e = n := by
        have := rowCount_step hlt
        omega
      have hadd : u32add s 16 = s + 16 := u32add_of_lt (by omega)
      unfold dumpLoop
      rw [if_pos hlt, hadd, dumpRow_eq tsize mem s d ht (by omega),
        ih fuel (s + 16) _ hn2 (by omega) (by omega), rowAddrs_cons hlt]
      simp [List.flatMap_cons, List.append_assoc]

/-- A dumper whose rows all start below `2 ^ 32` finishes and produces the
rows of `dumpText`, reading the bytes of each row in turn. -/
lemma XRQ_DUMPDATAFUNC_eq (tsize : Nat) (mem : Memory) (fuel s e : Nat)
    (ht : tsize = 1 ∨ tsize = 2 ∨ tsize = 4)
    (hw : s + 16 * rowCount s e < U32) (hf : rowCount s e < fuel) :
    XRQ_DUMPDATAFUNC tsize (2 * tsize) mem fuel s e =
      some ⟨dumpText tsize mem s e, (rowAddrs s e).flatMap (rowReads tsize), rowAddrs s e⟩ := by
  unfold XRQ_DUMPDATAFUNC
  rw [dumpLoop_eq tsize mem ht e (rowCount s e) fuel s _ rfl hf hw]
  simp [dumpText]

lemma dumpLoop_fuel_succ (tsize width : Nat) (mem : Memory) (e : Nat) :
    ∀ (fuel s : Nat) (d res : Dump), dumpLoop tsize width mem fuel s e d = some res →
      dumpLoop tsize width mem (fuel + 1) s e d = some res := by
  intro fuel
  induction fuel with
  | zero => intro s d res h; simp [dumpLoop] at h
  | succ fuel ih =>
    intro s d res h
    unfold dumpLoop at h ⊢
    split_ifs at h ⊢ with hlt
    · exact ih _ _ _ h
    · exact h

lemma dumpLoop_fuel_add (tsize width : Nat) (mem : Memory) (e fuel s : Nat) (d res : Dump)
    (h : dumpLoop tsize width mem fuel s e d = some res) :
    ∀ k, dumpLoop tsize width mem (fuel + k) s e d = some res := by
  intro k
  induction k with
  | zero => exact h
  | succ k ih => exact dumpLoop_fuel_succ tsize width mem e _ s d res ih

/-- Once every address congruent to `c` modulo 16 lies below `e`, the loop
started at such an address never ends. -/
lemma dumpLoop_cycle (tsize width : Nat) (mem : Memory) (e c : Nat)
    (hM : U32 - 16 + c < e) :
    ∀ (fuel s : Nat) (d : Dump), s % 16 = c → s < U32 →
      dumpLoop tsize width mem fuel s e d = none := by
  intro fuel
  induction fuel with
  | zero => intro s d _ _; rfl
  | succ fuel ih =>
    intro s d hc hs
    have hlt : s < e := by
      unfold U32 at *
      omega
    unfold dumpLoop
    rw [if_pos hlt]
    apply ih
    · unfold u32add U32 at *
      omega
    · unfold u32add
      exact Nat.mod_lt _ (by norm_num [U32])

/-- When the last row would start at or beyond `2 ^ 32`, the update
`s += 16` wraps and the loop never ends. -/
lemma dumpLoop_wraps (tsize width : Nat) (mem : Memory) (s e : Nat) (hs : s < U32)
    (hw : U32 ≤ s + 16 * rowCount s e) :
    ∀ (fuel : Nat) (d : Dump), dumpLoop tsize width mem fuel s e d = none := by
  intro fuel d
  apply dumpLoop_cycle tsize width mem e (s % 16) _ fuel s d rfl hs
  unfold rowCount U32 at *
  omega

lemma dumpLoop_of_some (tsize : Nat) (mem : Memory) (ht : tsize = 1 ∨ tsize = 2 ∨ tsize = 4)
    (fuel s e : Nat) (d res : Dump) (hs : s < U32)
    (h : dumpLoop tsize (2 * tsize) mem fuel s e d = some res) :
    s + 16 * rowCount s e < U32
    ∧ res = ⟨d.out ++ (rowAddrs s e).flatMap (rowText tsize mem),
             d.reads ++ (rowAddrs s e).flatMap (rowReads tsize),
             d.rows ++ rowAddrs s e⟩ := by
  have hw : s + 16 * rowCount s e < U32 := by
    by_contra hc
    rw [dumpLoop_wraps tsize (2 * tsize) mem s e hs (by omega) fuel d] at h
    exact Option.noConfusion h
  refine ⟨hw, ?_⟩
  have h1 := dumpLoop_fuel_add tsize (2 * tsize) mem e fuel s d res h (rowCount s e + 1)
  rw [dumpLoop_eq tsize mem ht e (rowCount s e) _ s d rfl (by omega) hw] at h1
  exact (Option.some.inj h1).symm

lemma XRQ_DUMPDATAFUNC_of_some (tsize : Nat) (mem : Memory) (fuel s e : Nat) (res : Dump)
    (ht : tsize = 1 ∨ tsize = 2 ∨ tsize = 4) (hs : s < U32)
    (h : XRQ_DUMPDATAFUNC tsize (2 * tsize) mem fuel s e = some res) :
    s + 16 * rowCount s e < U32
    ∧ res = ⟨dumpText tsize mem s e, (rowAddrs s e).flatMap (rowReads tsize),
             rowAddrs s e⟩ := by
  unfold XRQ_DUMPDATAFUNC at h
  obtain ⟨h1, h2⟩ := dumpLoop_of_some tsize mem ht fuel s e _ res hs h
  refine ⟨h1, ?_⟩
  rw [h2]
  simp [dumpText]

lemma digitChar_mem (d : Nat) (h : d < 16) :
    digitChar d ∈ "0123456789ABCDEF".toList := by
  interval_cases d <;> decide

lemma fixedHex_chars (w n : Nat) : ∀ c ∈ fixedHex w n, c ∈ "0123456789ABCDEF".toList := by
  induction w generalizing n with
  | zero => intro c hc; simp [fixedHex] at hc
  | succ w ih =>
    intro c hc
    simp only [fixedHex, List.mem_append, List.mem_singleton] at hc
    rcases hc with hc | hc
    · exact ih _ c hc
    · rw [hc]
      exact digitChar_mem _ (Nat.mod_lt _ (by norm_num))

/-- Every byte a dumper reads lies in one of its 16-byte rows: between the
start of the window and the end of the last row.  When the length of the
window is a multiple of 16 the end of the last row is the window's upper
bound. -/
lemma dump_reads_within_rows (tsize : Nat) (mem : Memory) (fuel lo hi : Nat) (d : Dump)
    (ht : tsize = 1 ∨ tsize = 2 ∨ tsize = 4) (hlo : lo < U32)
    (h : XRQ_DUMPDATAFUNC tsize (2 * tsize) mem fuel lo hi = some d) :
    (∀ a ∈ d.reads, lo ≤ a ∧ a < lo + 16 * rowCount lo hi)
    ∧ (lo ≤ hi → (hi - lo) % 16 = 0 → ∀ a ∈ d.reads, lo ≤ a ∧ a < hi) := by
  obtain ⟨hw, hd⟩ := XRQ_DUMPDATAFUNC_of_some tsize mem fuel lo hi d ht hlo h
  have key : ∀ a ∈ d.reads, lo ≤ a ∧ a < lo + 16 * rowCount lo hi := by
    intro a ha
    rw [hd] at ha
    simp only [rowAddrs, rowReads, objBytes, List.mem_flatMap, List.mem_map, List.mem_range,
      exists_exists_and_eq_and] at ha
    obtain ⟨k, hk, i, hi', j, hj, rfl⟩ := ha
    have hoff : i * tsize + j < 16 := by
      rcases ht with rfl | rfl | rfl <;> omega
    have hlt : lo + 16 * k + i * tsize + j < U32 := by omega
    rw [Nat.mod_eq_of_lt hlt]
    omega
  refine ⟨key, ?_⟩
  intro hle hm a ha
  have := key a ha
  unfold rowCount at this
  omega

/-- A returning dumper emits a number of rows different from
`(hi - lo) / 16` exactly when it reads a byte at or above `hi`: the row
beyond the quotient is the row that leaves the window. -/
lemma row_count_ne_iff_overread (tsize : Nat) (mem : Memory) (fuel lo hi : Nat) (d : Dump)
    (ht : tsize = 1 ∨ tsize = 2 ∨ tsize = 4) (hlo : lo < U32) (hle : lo ≤ hi)
    (h : XRQ_DUMPDATAFUNC tsize (2 * tsize) mem fuel lo hi = some d) :
    d.rows.length ≠ (hi - lo) / 16 ↔ ∃ a ∈ d.reads, hi ≤ a := by
  obtain ⟨hw, hd⟩ := XRQ_DUMPDATAFUNC_of_some tsize mem fuel lo hi d ht hlo h
  have hn : d.rows.length = rowCount lo hi := by
    rw [hd]
    exact rowAddrs_length lo hi
  constructor
  · intro hne
    have hm : (hi - lo) % 16 ≠ 0 := by
      intro h0
      apply hne
      rw [hn]
      unfold rowCount
      omega
    have hpos : 0 < rowCount lo hi := by
      unfold rowCount
      omega
    refine ⟨lo + 16 * (rowCount lo hi - 1) + 15, ?_, ?_⟩
    · rw [hd]
      simp only [rowAddrs, rowReads, objBytes, List.mem_flatMap, List.mem_map,
        List.mem_range, exists_exists_and_eq_and]
      have hlt : lo + 16 * (rowCount lo hi - 1) + 15 < U32 := by omega
      refine ⟨rowCount lo hi - 1, by omega, 16 / tsize - 1, ?_, tsize - 1, ?_, ?_⟩
      · rcases ht with rfl | rfl | rfl <;> norm_num
      · rcases ht with rfl | rfl | rfl <;> norm_num
      · have e : lo + 16 * (rowCount lo hi - 1) + (16 / tsize - 1) * tsize + (tsize - 1)
            = lo + 16 * (rowCount lo hi - 1) + 15 := by
          rcases ht with rfl | rfl | rfl <;> norm_num
        rw [e, Nat.mod_eq_of_lt hlt]
    · unfold rowCount at *
      omega
  · rintro ⟨a, ha, hge⟩ heq
    have key := (dump_reads_within_rows tsize mem fuel lo hi d ht hlo h).1 a ha
    rw [hn] at heq
    unfold rowCount at *
    omega

/-! ## The hex dumpers: theorems -/

/-- C6 (the code reads past the window): with a code image ending at
`0x08000024` and `R15 = 0x08000020`, `pc_dumpable` returns the window
`[0x08000010, 0x08000024)`, and the 32-bit dumper called on it by
`XRQ_DumpRegisters` reads the two full rows `0x08000010 .. 0x0800002F`, so
the bytes `0x08000024 .. 0x0800002F` are read although they lie at or above
the window's upper bound. -/
theorem dump_reads_past_upper :
    pc_dumpable ⟨0x08100000, 0x1000, 0x08000000, 0x08000024⟩ (0x08000020 &&& MASK_F)
      = some (0x08000010, 0x08000024)
    ∧ (XRQ_DumpData_u32 (fun _ => 0) 9 0x08000010 0x08000024).map (fun d => d.reads)
      = some ((List.range 32).map (fun k => 0x08000010 + k))
    ∧ (XRQ_DumpRegisters ⟨0x08100000, 0x1000, 0x08000000, 0x08000024⟩
        ⟨"GodMode9".toList, "v1".toList, "0:/gm9/out".toList⟩ ⟨0, 0, 0, 0, 0, 0⟩
        (fun _ => 0) 9 4 (fun i => if i = 15 then 0x08000020 else 0)).map
          (fun rep => rep.reads)
      = some ((List.range 32).map (fun k => 0x08000010 + k))
    ∧ ¬ (0x0800002F < 0x08000024) := by
  refine ⟨by decide, ?_, ?_, by decide⟩
  · decide
  · decide

/-- C7 (the code emits a row too many): the window `[0x08000010, 0x08000024)`
has both bounds aligned to 4 bytes and `lower ≤ upper`, so
`(upper - lower) / 16` is 1, but the 32-bit dumper emits the two rows
`0x08000010` and `0x08000020`.  The second row does not fit below the upper
bound: it is the row whose reads `0x08000024 .. 0x0800002F` leave the
window. -/
theorem dump_emits_extra_row :
    (XRQ_DumpData_u32 (fun _ => 0) 9 0x08000010 0x08000024).map (fun d => d.rows)
      = some [0x08000010, 0x08000020]
    ∧ (XRQ_DumpData_u32 (fun _ => 0) 9 0x08000010 0x08000024).map (fun d => d.rows.length)
      = some 2
    ∧ (0x08000024 - 0x08000010) / 16 = 1
    ∧ 0x08000010 % 4 = 0 ∧ 0x08000024 % 4 = 0 ∧ 0x08000010 ≤ 0x08000024
    ∧ ¬ (0x08000020 + 16 ≤ 0x08000024)
    ∧ (XRQ_DumpData_u32 (fun _ => 0) 9 0x08000010 0x08000024).map
        (fun d => decide (0x0800002F ∈ d.reads)) = some true := by
  decide

/-- C8: for word size `tsize` (1, 2 or 4 bytes), whenever the dumper returns,
its output is the concatenation of its rows; row `k` starts at address
`lo + 16 * k` and consists of that address in 8 hexadecimal digits, a colon
and a space, then `16 / tsize` words of `2 * tsize` hexadecimal digits read at
`start, start + tsize, ...`, each followed by a space, and a newline.  The
digit groups have exactly the stated widths, hold upper-case hexadecimal
digits only, and are wide enough for the address and for every word.  The
dumper does return when all its rows start below `2 ^ 32`. -/
theorem dump_row_format (tsize : Nat) (mem : Memory) (lo hi : Nat)
    (ht : tsize = 1 ∨ tsize = 2 ∨ tsize = 4) (hlo : lo < U32) :
    (∀ fuel d, XRQ_DUMPDATAFUNC tsize (2 * tsize) mem fuel lo hi = some d →
      d.rows = (List.range ((hi - lo + 15) / 16)).map (fun k => lo + 16 * k)
      ∧ d.out = d.rows.flatMap (fun start =>
          fixedHex 8 start ++ [':', ' ']
            ++ (List.range (16 / tsize)).flatMap (fun i =>
                fixedHex (2 * tsize) (readLE mem (start + i * tsize) tsize) ++ [' '])
            ++ ['\n'])
      ∧ (∀ start ∈ d.rows, start < 16 ^ 8))
    ∧ (lo + 16 * ((hi - lo + 15) / 16) < U32 → ∀ fuel, (hi - lo + 15) / 16 < fuel →
        ∃ d, XRQ_DUMPDATAFUNC tsize (2 * tsize) mem fuel lo hi = some d)
    ∧ (∀ start, (fixedHex 8 start).length = 8
        ∧ ∀ c ∈ fixedHex 8 start, c ∈ "0123456789ABCDEF".toList)
    ∧ (∀ v, (fixedHex (2 * tsize) v).length = 2 * tsize
        ∧ ∀ c ∈ fixedHex (2 * tsize) v, c ∈ "0123456789ABCDEF".toList)
    ∧ (∀ a, readLE mem a tsize < 16 ^ (2 * tsize)) := by
  refine ⟨?_, ?_, ?_, ?_, ?_⟩
  · intro fuel d h
    obtain ⟨h1, h2⟩ := XRQ_DUMPDATAFUNC_of_some tsize mem fuel lo hi d ht hlo h
    subst h2
    refine ⟨rfl, rfl, ?_⟩
    intro start hst
    simp only [rowAddrs, List.mem_map, List.mem_range] at hst
    obtain ⟨k, hk, rfl⟩ := hst
    have : (16 : Nat) ^ 8 = U32 := by norm_num [U32]
    rw [this]
    omega
  · intro hw fuel hf
    exact ⟨_, XRQ_DUMPDATAFUNC_eq tsize mem fuel lo hi ht hw hf⟩
  · exact fun a => ⟨fixedHex_length 8 a, fixedHex_chars 8 a⟩
  · exact fun v => ⟨fixedHex_length _ v, fixedHex_chars _ v⟩
  · intro a
    have h := readLE_lt mem tsize a
    have e : (16 : Nat) ^ (2 * tsize) = 256 ^ tsize := by
      rw [pow_mul]
      norm_num
    rw [e]
    exact h

theorem dump_row_format_witness :
    ∃ d, XRQ_DUMPDATAFUNC 4 (2 * 4) (fun a => a) 9 0x08000010 0x08000030 = some d
      ∧ d.rows = (List.range ((0x08000030 - 0x08000010 + 15) / 16)).map
          (fun k => 0x08000010 + 16 * k)
      ∧ d.out = d.rows.flatMap (fun start =>
          fixedHex 8 start ++ [':', ' ']
            ++ (List.range (16 / 4)).flatMap (fun i =>
                fixedHex (2 * 4) (readLE (fun a => a) (start + i * 4) 4) ++ [' '])
            ++ ['\n'])
      ∧ (∀ start ∈ d.rows, start < 16 ^ 8) :=
  Exists.elim
    ((dump_row_format 4 (fun a => a) 0x08000010 0x08000030 (by decide) (by decide)).2.1
      (by decide) 9 (by decide))
    (fun d hd => ⟨d, hd,
      (dump_row_format 4 (fun a => a) 0x08000010 0x08000030 (by decide) (by decide)).1
        9 d hd⟩)

/-! ## The report: lemmas -/

lemma mask_lt (x : Nat) : x &&& MASK_F < U32 := by
  have h : MASK_F < 2 ^ 32 := by decide
  exact Nat.and_lt_two_pow x h

lemma mask_mod16 (x : Nat) : (x &&& MASK_F) % 16 = 0 := by
  have h := Nat.and_pow_two_sub_one_eq_mod (x &&& MASK_F) 4
  have h0 : MASK_F &&& (2 ^ 4 - 1) = 0 := by decide
  rw [Nat.and_assoc, h0, Nat.and_zero] at h
  have e : (2 : Nat) ^ 4 = 16 := by norm_num
  rw [e] at h
  exact h.symm

lemma sp_window_rows {r : Regions} {sp lo hi : Nat} (hsp : sp < U32)
    (h : sp_dumpable r sp = some (lo, hi)) :
    lo < U32 ∧ lo + 16 * rowCount lo hi < U32 ∧ rowCount lo hi ≤ 8 := by
  obtain ⟨h1, _, h3, h4⟩ := sp_dumpable_eq_some h
  unfold u32add SP_DUMPLEN rowCount U32 at *
  omega

lemma pc_window_rows {r : Regions} {pc lo hi : Nat} (hpc : pc < U32) (hal : pc % 16 = 0)
    (h : pc_dumpable r pc = some (lo, hi)) :
    lo < U32 ∧ lo + 16 * rowCount lo hi < U32 ∧ rowCount lo hi ≤ 2 := by
  obtain ⟨h1, h2, h3, h4⟩ := pc_dumpable_eq_some h
  unfold u32add u32sub PC_DUMPRAD rowCount U32 at *
  omega

lemma dumpHeader_eq (bld : Build) (t : DsTime) (xrq : Nat) (regs : Nat → Nat) :
    dumpHeader bld t xrq regs = headerText bld t xrq ++ registerText regs := by
  have hr : List.range 8 = [0, 1, 2, 3, 4, 5, 6, 7] := by decide
  simp [dumpHeader, headerText, registerText, registerLine, regLoop, regLine, hr,
    List.flatMap_cons, List.append_assoc]

lemma dumpStack_eq (r : Regions) (mem : Memory) (fuel : Nat) (regs : Nat → Nat)
    (w : List Char) (rd0 : List Nat) (hf : 9 ≤ fuel) :
    ∃ rd, dumpStack r mem fuel regs (w, rd0) = some (w ++ stackSection r mem regs, rd) := by
  cases hw : sp_dumpable r (regs 13 &&& MASK_F) with
  | none =>
    refine ⟨rd0, ?_⟩
    simp only [dumpStack, stackSection, hw, List.append_nil]
  | some win =>
    obtain ⟨lo, hi⟩ := win
    obtain ⟨_, h2, h3⟩ := sp_window_rows (mask_lt _) hw
    have hd := XRQ_DUMPDATAFUNC_eq 1 mem fuel lo hi (by decide) h2 (by omega)
    change XRQ_DUMPDATAFUNC 1 2 mem fuel lo hi = _ at hd
    refine ⟨rd0 ++ (rowAddrs lo hi).flatMap (rowReads 1), ?_⟩
    simp only [dumpStack, stackSection, hw, XRQ_DumpData_u8, hd, List.append_assoc]

lemma dumpCode_eq (r : Regions) (mem : Memory) (fuel : Nat) (regs : Nat → Nat)
    (w : List Char) (rd0 : List Nat) (hf : 3 ≤ fuel) :
    ∃ rd, dumpCode r mem fuel regs (w, rd0) = some (w ++ codeSection r mem regs, rd) := by
  cases hw : pc_dumpable r (regs 15 &&& MASK_F) with
  | none =>
    refine ⟨rd0, ?_⟩
    simp only [dumpCode, codeSection, hw, List.append_nil]
  | some win =>
    obtain ⟨lo, hi⟩ := win
    obtain ⟨_, h2, h3⟩ := pc_window_rows (mask_lt _) (mask_mod16 _) hw
    by_cases hth : regs 16 &&& SR_THUMB ≠ 0
    · have hd := XRQ_DUMPDATAFUNC_eq 2 mem fuel lo hi (by decide) h2 (by omega)
      change XRQ_DUMPDATAFUNC 2 4 mem fuel lo hi = _ at hd
      refine ⟨rd0 ++ (rowAddrs lo hi).flatMap (rowReads 2), ?_⟩
      simp only [dumpCode, codeSection, hw, XRQ_DumpData_u16, if_pos hth, hd,
        List.append_assoc]
    · have hd := XRQ_DUMPDATAFUNC_eq 4 mem fuel lo hi (by decide) h2 (by omega)
      change XRQ_DUMPDATAFUNC 4 8 mem fuel lo hi = _ at hd
      refine ⟨rd0 ++ (rowAddrs lo hi).flatMap (rowReads 4), ?_⟩
      simp only [dumpCode, codeSection, hw, XRQ_DumpData_u32, if_neg hth, hd,
        List.append_assoc]

/-- With at least 9 loop tests allowed per dumper, `XRQ_DumpRegisters` reaches
the call of `FileSetData`, and its outputs are the following. -/
lemma XRQ_DumpRegisters_eq (r : Regions) (bld : Build) (t : DsTime) (mem : Memory)
    (fuel xrq : Nat) (regs : Nat → Nat) (hf : 9 ≤ fuel) :
    ∃ rep, XRQ_DumpRegisters r bld t mem fuel xrq regs = some rep
      ∧ rep.screen = headerText bld t xrq ++ registerText regs
      ∧ rep.dumpstr = headerText bld t xrq ++ registerText regs
          ++ stackSection r mem regs ++ codeSection r mem regs
      ∧ rep.written = rep.dumpstr.length := by
  obtain ⟨rd1, h1⟩ := dumpStack_eq r mem fuel regs (dumpHeader bld t xrq regs) [] hf
  obtain ⟨rd2, h2⟩ := dumpCode_eq r mem fuel regs
    (dumpHeader bld t xrq regs ++ stackSection r mem regs) rd1 (by omega)
  rw [dumpHeader_eq] at h1 h2
  simp only [XRQ_DumpRegisters, dumpHeader_eq, h1, h2]
  refine ⟨_, rfl, ?_, ?_, ?_⟩
  · simp only
  · simp only
  · simp only

/-! ## The report: lengths -/

lemma fmt_lu_length_le (n : Nat) : (fmt_lu n).length ≤ 10 := by
  unfold fmt_lu
  rw [List.length_map]
  apply digitsAux_length_le 10 10 32 (n % U32) (by norm_num)
  have : n % U32 < U32 := Nat.mod_lt _ (by norm_num [U32])
  unfold U32 at *
  omega

lemma XRQ_Name_length_le (xrq : Nat) : (XRQ_Name.getD (xrq &&& 7) []).length ≤ 14 := by
  have h : xrq &&& 7 < 2 ^ 3 := Nat.and_lt_two_pow xrq (by norm_num)
  have h8 : xrq &&& 7 < 8 := by simpa using h
  generalize xrq &&& 7 = i at h8
  interval_cases i <;> decide

lemma fmt_0lX_2_length (x : Nat) : (fmt_0lX 2 (u8 x)).length = 2 := by
  have hx : u8 x < 16 ^ 2 := by
    unfold u8
    omega
  rw [fmt_0lX_eq_fixedHex 2 (u8 x) (by norm_num) (by norm_num) hx, fixedHex_length]

lemma fmt_0lX_8_length (n : Nat) : (fmt_0lX 8 n).length = 8 := by
  rw [fmt_0lX_8, fixedHex_length]

lemma headerText_length_le (bld : Build) (t : DsTime) (xrq : Nat) :
    (headerText bld t xrq).length ≤ 63 + bld.FLAVOR.length + bld.VERSION.length := by
  have h1 := fmt_lu_length_le xrq
  have h2 := XRQ_Name_length_le xrq
  have e1 : "Exception: ".toList.length = 11 := by decide
  have e2 : " (".toList.length = 2 := by decide
  have e3 : ")\n".toList.length = 2 := by decide
  have e4 : "20".toList.length = 2 := by decide
  have e5 : "\n \n".toList.length = 3 := by decide
  simp only [headerText, List.length_append, List.length_singleton, fmt_0lX_2_length,
    e1, e2, e3, e4, e5]
  omega

lemma registerText_length (regs : Nat → Nat) : (registerText regs).length = 256 := by
  have hr : List.range 8 = [0, 1, 2, 3, 4, 5, 6, 7] := by decide
  have e1 : ": ".toList.length = 2 := by decide
  have e2 : " | R".toList.length = 4 := by decide
  have e3 : "CPSR: ".toList.length = 6 := by decide
  have e4 : "\n\n".toList.length = 2 := by decide
  have d : ∀ i, i < 16 → (fmt_02d i).length = 2 := by
    intro i hi
    interval_cases i <;> decide
  simp only [registerText, registerLine, hr, List.flatMap_cons, List.flatMap_nil,
    List.length_append, List.length_singleton, List.length_nil, fmt_0lX_8_length,
    e1, e2, e3, e4]
  simp only [d _ (show 2 * 0 < 16 by norm_num), d _ (show 2 * 0 + 1 < 16 by norm_num),
    d _ (show 2 * 1 < 16 by norm_num), d _ (show 2 * 1 + 1 < 16 by norm_num),
    d _ (show 2 * 2 < 16 by norm_num), d _ (show 2 * 2 + 1 < 16 by norm_num),
    d _ (show 2 * 3 < 16 by norm_num), d _ (show 2 * 3 + 1 < 16 by norm_num),
    d _ (show 2 * 4 < 16 by norm_num), d _ (show 2 * 4 + 1 < 16 by norm_num),
    d _ (show 2 * 5 < 16 by norm_num), d _ (show 2 * 5 + 1 < 16 by norm_num),
    d _ (show 2 * 6 < 16 by norm_num), d _ (show 2 * 6 + 1 < 16 by norm_num),
    d _ (show 2 * 7 < 16 by norm_num), d _ (show 2 * 7 + 1 < 16 by norm_num)]

lemma length_flatMap_const {α β : Type} (f : α → List β) (c : Nat)
    (hc : ∀ a, (f a).length = c) : ∀ l : List α, (l.flatMap f).length = l.length * c := by
  intro l
  induction l with
  | nil => simp
  | cons a l ih =>
    rw [List.flatMap_cons, List.length_append, ih, hc, List.length_cons]
    ring

lemma rowText_length (tsize : Nat) (mem : Memory) (a : Nat) :
    (rowText tsize mem a).length = 11 + (16 / tsize) * (2 * tsize + 1) := by
  unfold rowText
  rw [List.length_append, List.length_append, List.length_append, fixedHex_length,
    length_flatMap_const _ (2 * tsize + 1), List.length_range]
  · simp only [List.length_cons, List.length_nil]
    omega
  · intro i
    rw [List.length_append, fixedHex_length]
    rfl

lemma dumpText_length (tsize : Nat) (mem : Memory) (s e : Nat) :
    (dumpText tsize mem s e).length
      = rowCount s e * (11 + (16 / tsize) * (2 * tsize + 1)) := by
  unfold dumpText
  rw [length_flatMap_const _ _ (rowText_length tsize mem), rowAddrs_length]

lemma stackSection_length_le (r : Regions) (mem : Memory) (regs : Nat → Nat) :
    (stackSection r mem regs).length ≤ 480 := by
  unfold stackSection
  cases hw : sp_dumpable r (regs 13 &&& MASK_F) with
  | none => simp
  | some win =>
    obtain ⟨lo, hi⟩ := win
    obtain ⟨_, _, h3⟩ := sp_window_rows (mask_lt _) hw
    have e1 : "Stack:\n".toList.length = 7 := by decide
    simp only [List.length_append, List.length_singleton, dumpText_length, e1]
    norm_num
    omega

lemma codeSection_length_le (r : Regions) (mem : Memory) (regs : Nat → Nat) :
    (codeSection r mem regs).length ≤ 108 := by
  unfold codeSection
  cases hw : pc_dumpable r (regs 15 &&& MASK_F) with
  | none => simp
  | some win =>
    obtain ⟨lo, hi⟩ := win
    obtain ⟨_, _, h3⟩ := pc_window_rows (mask_lt _) (mask_mod16 _) hw
    have e1 : "Code:\n".toList.length = 6 := by decide
    simp only [List.length_append, dumpText_length, e1]
    split_ifs
    · norm_num
      omega
    · norm_num
      omega

lemma stackSection_dump (r : Regions) (mem : Memory) (fuel : Nat) (regs : Nat → Nat)
    (hf : 9 ≤ fuel) :
    match sp_dumpable r (regs 13 &&& MASK_F) with
    | none => stackSection r mem regs = []
    | some (lo, hi) =>
      ∃ d, XRQ_DumpData_u8 mem fuel lo hi = some d
        ∧ stackSection r mem regs = "Stack:\n".toList ++ d.out ++ ['\n'] := by
  cases hw : sp_dumpable r (regs 13 &&& MASK_F) with
  | none => simp only [stackSection, hw]
  | some win =>
    obtain ⟨lo, hi⟩ := win
    obtain ⟨_, h2, h3⟩ := sp_window_rows (mask_lt _) hw
    have hd := XRQ_DUMPDATAFUNC_eq 1 mem fuel lo hi (by decide) h2 (by omega)
    change XRQ_DUMPDATAFUNC 1 2 mem fuel lo hi = _ at hd
    simp only [stackSection, hw, XRQ_DumpData_u8]
    exact ⟨_, hd, rfl⟩

lemma codeSection_dump (r : Regions) (mem : Memory) (fuel : Nat) (regs : Nat → Nat)
    (hf : 3 ≤ fuel) :
    match pc_dumpable r (regs 15 &&& MASK_F) with
    | none => codeSection r mem regs = []
    | some (lo, hi) =>
      ∃ d, (if regs 16 &&& SR_THUMB ≠ 0 then XRQ_DumpData_u16 mem fuel lo hi
            else XRQ_DumpData_u32 mem fuel lo hi) = some d
        ∧ codeSection r mem regs = "Code:\n".toList ++ d.out := by
  cases hw : pc_dumpable r (regs 15 &&& MASK_F) with
  | none => simp only [codeSection, hw]
  | some win =>
    obtain ⟨lo, hi⟩ := win
    obtain ⟨_, h2, h3⟩ := pc_window_rows (mask_lt _) (mask_mod16 _) hw
    by_cases hth : regs 16 &&& SR_THUMB ≠ 0
    · have hd := XRQ_DUMPDATAFUNC_eq 2 mem fuel lo hi (by decide) h2 (by omega)
      change XRQ_DUMPDATAFUNC 2 4 mem fuel lo hi = _ at hd
      simp only [codeSection, hw, XRQ_DumpData_u16, if_pos hth]
      exact ⟨_, hd, rfl⟩
    · have hd := XRQ_DUMPDATAFUNC_eq 4 mem fuel lo hi (by decide) h2 (by omega)
      change XRQ_DUMPDATAFUNC 4 8 mem fuel lo hi = _ at hd
      simp only [codeSection, hw, XRQ_DumpData_u32, if_neg hth]
      exact ⟨_, hd, rfl⟩

/-! ## The report: theorems -/

/-- C9: when `FLAVOR` and `VERSION` together have at most 256 characters,
`XRQ_DumpRegisters` finishes composing the report for every exception index,
register bank, timestamp, memory content and region bounds, and the text
written to `dumpstr`, counted with its terminating NUL, fits the declared
2048 bytes (it is in fact at most 1164 bytes long). -/
theorem report_fits_buffer (r : Regions) (bld : Build) (t : DsTime) (mem : Memory)
    (fuel xrq : Nat) (regs : Nat → Nat)
    (hb : bld.FLAVOR.length + bld.VERSION.length ≤ 256) (hf : 9 ≤ fuel) :
    ∃ rep, XRQ_DumpRegisters r bld t mem fuel xrq regs = some rep
      ∧ rep.dumpstr.length + 1 ≤ DUMPSTR_SIZE
      ∧ rep.dumpstr.length + 1 ≤ 1164 := by
  obtain ⟨rep, h, _, hd, _⟩ := XRQ_DumpRegisters_eq r bld t mem fuel xrq regs hf
  have h1 := headerText_length_le bld t xrq
  have h2 := registerText_length regs
  have h3 := stackSection_length_le r mem regs
  have h4 := codeSection_length_le r mem regs
  refine ⟨rep, h, ?_, ?_⟩
  · rw [hd]
    simp only [List.length_append, DUMPSTR_SIZE]
    omega
  · rw [hd]
    simp only [List.length_append]
    omega

theorem report_fits_buffer_witness :
    ∃ rep, XRQ_DumpRegisters ⟨0x08100000, 0x1000, 0x08000000, 0x08040000⟩
        ⟨"GodMode9".toList, "v2.1.1".toList, "0:/gm9/out".toList⟩
        ⟨0x24, 0x12, 0x31, 0x23, 0x59, 0x58⟩ (fun a => a) 9 4
        (fun i => if i = 13 then 0x080FFF80 else if i = 15 then 0x08000120 else i) = some rep
      ∧ rep.dumpstr.length + 1 ≤ DUMPSTR_SIZE
      ∧ rep.dumpstr.length + 1 ≤ 1164 :=
  report_fits_buffer ⟨0x08100000, 0x1000, 0x08000000, 0x08040000⟩
    ⟨"GodMode9".toList, "v2.1.1".toList, "0:/gm9/out".toList⟩
    ⟨0x24, 0x12, 0x31, 0x23, 0x59, 0x58⟩ (fun a => a) 9 4
    (fun i => if i = 13 then 0x080FFF80 else if i = 15 then 0x08000120 else i)
    (by decide) (by decide)

/-- C10: the report is the header, then the register section, then the stack
section, then the code section.  The stack section is empty when
`sp_dumpable` rejects the masked R13 and otherwise is the line `Stack:`, the
output of the byte dumper on the stack window and an empty line; the code
section is empty when `pc_dumpable` rejects the masked R15 and otherwise is
the line `Code:` and the output of the 16-bit or 32-bit dumper on the code
window.  Header and register section do not depend on the windows. -/
theorem report_section_order (r : Regions) (bld : Build) (t : DsTime) (mem : Memory)
    (fuel xrq : Nat) (regs : Nat → Nat) (hf : 9 ≤ fuel) :
    ∃ rep, XRQ_DumpRegisters r bld t mem fuel xrq regs = some rep
      ∧ rep.dumpstr = headerText bld t xrq ++ registerText regs
          ++ stackSection r mem regs ++ codeSection r mem regs
      ∧ (match sp_dumpable r (regs 13 &&& MASK_F) with
          | none => stackSection r mem regs = []
          | some (lo, hi) =>
            ∃ d, XRQ_DumpData_u8 mem fuel lo hi = some d
              ∧ stackSection r mem regs = "Stack:\n".toList ++ d.out ++ ['\n'])
      ∧ (match pc_dumpable r (regs 15 &&& MASK_F) with
          | none => codeSection r mem regs = []
          | some (lo, hi) =>
            ∃ d, (if regs 16 &&& SR_THUMB ≠ 0 then XRQ_DumpData_u16 mem fuel lo hi
                  else XRQ_DumpData_u32 mem fuel lo hi) = some d
              ∧ codeSection r mem regs = "Code:\n".toList ++ d.out) := by
  obtain ⟨rep, h, _, hd, _⟩ := XRQ_DumpRegisters_eq r bld t mem fuel xrq regs hf
  exact ⟨rep, h, hd, stackSection_dump r mem fuel regs hf,
    codeSection_dump r mem fuel regs (by omega)⟩

theorem report_section_order_witness :
    ∃ rep, XRQ_DumpRegisters ⟨0x08100000, 0x1000, 0x08000000, 0x08040000⟩
        ⟨"GodMode9".toList, "v2.1.1".toList, "0:/gm9/out".toList⟩
        ⟨0x24, 0x12, 0x31, 0x23, 0x59, 0x58⟩ (fun a => a) 9 4
        (fun i => if i = 13 then 0x080FFF80 else if i = 15 then 0x08000120 else i) = some rep
      ∧ rep.dumpstr = headerText ⟨"GodMode9".toList, "v2.1.1".toList, "0:/gm9/out".toList⟩
            ⟨0x24, 0x12, 0x31, 0x23, 0x59, 0x58⟩ 4
          ++ registerText
            (fun i => if i = 13 then 0x080FFF80 else if i = 15 then 0x08000120 else i)
          ++ stackSection ⟨0x08100000, 0x1000, 0x08000000, 0x08040000⟩ (fun a => a)
            (fun i => if i = 13 then 0x080FFF80 else if i = 15 then 0x08000120 else i)
          ++ codeSection ⟨0x08100000, 0x1000, 0x08000000, 0x08040000⟩ (fun a => a)
            (fun i => if i = 13 then 0x080FFF80 else if i = 15 then 0x08000120 else i) :=
  Exists.elim
    (report_section_order ⟨0x08100000, 0x1000, 0x08000000, 0x08040000⟩
      ⟨"GodMode9".toList, "v2.1.1".toList, "0:/gm9/out".toList⟩
      ⟨0x24, 0x12, 0x31, 0x23, 0x59, 0x58⟩ (fun a => a) 9 4
      (fun i => if i = 13 then 0x080FFF80 else if i = 15 then 0x08000120 else i)
      (by decide))
    (fun rep h => ⟨rep, h.1, h.2.1⟩)

/-! ## The masked registers -/

lemma mask_eq (x : Nat) (hx : x < U32) : x &&& MASK_F = 16 * (x / 16) := by
  apply Nat.eq_of_testBit_eq
  intro i
  have hm : MASK_F = 2 ^ 4 * (2 ^ 28 - 1) := by decide
  have hd : 16 * (x / 16) = 2 ^ 4 * (x >>> 4) := by
    rw [Nat.shiftRight_eq_div_pow]
    norm_num
  rw [Nat.testBit_and, hm, hd, Nat.testBit_mul_pow_two, Nat.testBit_mul_pow_two,
    Nat.testBit_two_pow_sub_one, Nat.testBit_shiftRight]
  by_cases h4 : i ≥ 4
  · have e : 4 + (i - 4) = i := by omega
    rw [e]
    by_cases h32 : i < 32
    · have : i - 4 < 28 := by omega
      simp [h4, this]
    · have hxi : x.testBit i = false := by
        apply Nat.testBit_lt_two_pow
        calc x < 2 ^ 32 := hx
          _ ≤ 2 ^ i := Nat.pow_le_pow_right (by norm_num) (by omega)
      simp [hxi]
  · simp [h4]

lemma mask_of_aligned (x : Nat) (hx : x < U32) (hal : x % 16 = 0) : x &&& MASK_F = x := by
  rw [mask_eq x hx]
  omega

lemma thumb_iff (x : Nat) : x &&& SR_THUMB ≠ 0 ↔ x.testBit 5 = true := by
  have h : SR_THUMB = 2 ^ 5 := by decide
  rw [h, Nat.and_two_pow]
  cases x.testBit 5 <;> simp

/-! ## End-to-end scenarios -/

/-- C11 (as stated, refuted): with `stack_top = 0x08100008`,
`stack_len = 0x80` and `R13 = stack_top - 0x80 = 0x080FFF88`, the masked stack
pointer `0x080FFF80` lies below the stack region and the report has no stack
section; with the same `stack_top` and `stack_len = 0x1000` the window is
`[0x080FFF80, 0x08100000)`, whose upper bound is not `stack_top`. -/
theorem scenario_A_counterexample :
    0x80 ≤ 0x80
    ∧ sp_dumpable ⟨0x08100008, 0x80, 0x08000000, 0x08040000⟩
        ((0x08100008 - 0x80) &&& MASK_F) = none
    ∧ stackSection ⟨0x08100008, 0x80, 0x08000000, 0x08040000⟩ (fun _ => 0)
        (fun i => if i = 13 then 0x08100008 - 0x80 else 0) = []
    ∧ sp_dumpable ⟨0x08100008, 0x1000, 0x08000000, 0x08040000⟩
        ((0x08100008 - 0x80) &&& MASK_F) = some (0x080FFF80, 0x08100000)
    ∧ 0x08100000 ≠ 0x08100008 := by
  decide

/-- C11 (amended): for a stack region whose `stack_top` is a multiple of 16
and `0x80 ≤ stack_len ≤ stack_top`, a fault with `R13 = stack_top - 0x80`
gives the stack window `[stack_top - 0x80, stack_top)`, and the report holds a
stack section made of the line `Stack:`, exactly `SP_DUMPLEN / 16 = 8` dump
rows and an empty line. -/
theorem scenario_A (r : Regions) (bld : Build) (t : DsTime) (mem : Memory)
    (fuel xrq : Nat) (regs : Nat → Nat)
    (htop : r.stack_top < U32) (hal : r.stack_top % 16 = 0)
    (hlen : SP_DUMPLEN ≤ r.stack_len) (hle : r.stack_len ≤ r.stack_top)
    (hr : regs 13 = r.stack_top - SP_DUMPLEN) (hf : 9 ≤ fuel) :
    sp_dumpable r (regs 13 &&& MASK_F) = some (r.stack_top - SP_DUMPLEN, r.stack_top)
    ∧ ∃ rep d, XRQ_DumpRegisters r bld t mem fuel xrq regs = some rep
        ∧ XRQ_DumpData_u8 mem fuel (r.stack_top - SP_DUMPLEN) r.stack_top = some d
        ∧ d.rows.length = SP_DUMPLEN / 16
        ∧ d.rows.length = 8
        ∧ rep.dumpstr = headerText bld t xrq ++ registerText regs
            ++ ("Stack:\n".toList ++ d.out ++ ['\n']) ++ codeSection r mem regs := by
  have hm : regs 13 &&& MASK_F = r.stack_top - SP_DUMPLEN := by
    rw [hr]
    apply mask_of_aligned
    · omega
    · unfold SP_DUMPLEN at *
      omega
  have hw : sp_dumpable r (regs 13 &&& MASK_F)
      = some (r.stack_top - SP_DUMPLEN, r.stack_top) := by
    rw [hm]
    unfold sp_dumpable
    rw [u32sub_of_le htop hle, u32add_of_lt (by unfold SP_DUMPLEN at *; omega)]
    rw [if_neg (by unfold SP_DUMPLEN at *; omega)]
    congr 2
    unfold SP_DUMPLEN at *
    omega
  refine ⟨hw, ?_⟩
  obtain ⟨rep, h1, _, h3, _⟩ := XRQ_DumpRegisters_eq r bld t mem fuel xrq regs hf
  have hs := stackSection_dump r mem fuel regs hf
  rw [hw] at hs
  obtain ⟨d, hd1, hd2⟩ := hs
  have hd3 := hd1
  change XRQ_DUMPDATAFUNC 1 (2 * 1) mem fuel _ _ = some d at hd3
  obtain ⟨_, hd4⟩ := XRQ_DUMPDATAFUNC_of_some 1 mem fuel _ _ d (by decide) (by omega) hd3
  have hn : d.rows.length = 8 := by
    rw [hd4]
    simp only [rowAddrs_length, rowCount]
    unfold SP_DUMPLEN at *
    omega
  refine ⟨rep, d, h1, hd1, ?_, hn, ?_⟩
  · rw [hn]
    decide
  · rw [h3, hd2]

theorem scenario_A_witness :
    sp_dumpable ⟨0x08100000, 0x1000, 0x08000000, 0x08040000⟩ (0x080FFF80 &&& MASK_F)
      = some (0x08100000 - SP_DUMPLEN, 0x08100000)
    ∧ ∃ rep d, XRQ_DumpRegisters ⟨0x08100000, 0x1000, 0x08000000, 0x08040000⟩
          ⟨"GodMode9".toList, "v2.1.1".toList, "0:/gm9/out".toList⟩
          ⟨0x24, 0x12, 0x31, 0x23, 0x59, 0x58⟩ (fun a => a) 9 4
          (fun i => if i = 13 then 0x080FFF80 else i) = some rep
        ∧ XRQ_DumpData_u8 (fun a => a) 9 (0x08100000 - SP_DUMPLEN) 0x08100000 = some d
        ∧ d.rows.length = SP_DUMPLEN / 16
        ∧ d.rows.length = 8
        ∧ rep.dumpstr = headerText ⟨"GodMode9".toList, "v2.1.1".toList, "0:/gm9/out".toList⟩
              ⟨0x24, 0x12, 0x31, 0x23, 0x59, 0x58⟩ 4
            ++ registerText (fun i => if i = 13 then 0x080FFF80 else i)
            ++ ("Stack:\n".toList ++ d.out ++ ['\n'])
            ++ codeSection ⟨0x08100000, 0x1000, 0x08000000, 0x08040000⟩ (fun a => a)
              (fun i => if i = 13 then 0x080FFF80 else i) :=
  scenario_A ⟨0x08100000, 0x1000, 0x08000000, 0x08040000⟩
    ⟨"GodMode9".toList, "v2.1.1".toList, "0:/gm9/out".toList⟩
    ⟨0x24, 0x12, 0x31, 0x23, 0x59, 0x58⟩ (fun a => a) 9 4
    (fun i => if i = 13 then 0x080FFF80 else i)
    (by decide) (by decide) (by decide) (by decide) (by decide) (by decide)

/-- C12 (as stated, refuted): with `code_end = 0x08000024` and
`R15 = code_end + 4 = 0x08000028` the masked program counter `0x08000020`
lies inside the image, `pc_dumpable` returns the window
`[0x08000010, 0x08000024)` and the report has a code section. -/
theorem scenario_B_counterexample :
    (0x08000024 + 4) &&& MASK_F = 0x08000020
    ∧ pc_dumpable ⟨0x08100000, 0x1000, 0x08000000, 0x08000024⟩
        ((0x08000024 + 4) &&& MASK_F) = some (0x08000010, 0x08000024)
    ∧ (codeSection ⟨0x08100000, 0x1000, 0x08000000, 0x08000024⟩ (fun _ => 0)
        (fun i => if i = 15 then 0x08000024 + 4 else 0)).take 6 = "Code:\n".toList := by
  decide

/-- C12 (amended): when `R15 = code_end + 4` does not exceed 32 bits and
`code_end` modulo 16 is 0 or at least 12, so that the masked program counter
`R15 & ~0xF` is not below `code_end`, `pc_dumpable` rejects it and the report
ends after the stack section: it has no code section, while the stack section
is present exactly as for any other fault (empty only when `sp_dumpable`
rejects the masked R13). -/
theorem scenario_B (r : Regions) (bld : Build) (t : DsTime) (mem : Memory)
    (fuel xrq : Nat) (regs : Nat → Nat)
    (hlt : r.code_end + 4 < U32) (hal : r.code_end % 16 = 0 ∨ 12 ≤ r.code_end % 16)
    (hr : regs 15 = r.code_end + 4) (hf : 9 ≤ fuel) :
    pc_dumpable r (regs 15 &&& MASK_F) = none
    ∧ codeSection r mem regs = []
    ∧ ∃ rep, XRQ_DumpRegisters r bld t mem fuel xrq regs = some rep
        ∧ rep.dumpstr = headerText bld t xrq ++ registerText regs ++ stackSection r mem regs
        ∧ (match sp_dumpable r (regs 13 &&& MASK_F) with
            | none => stackSection r mem regs = []
            | some (lo, hi) =>
              ∃ d, XRQ_DumpData_u8 mem fuel lo hi = some d
                ∧ stackSection r mem regs = "Stack:\n".toList ++ d.out ++ ['\n']) := by
  have hm : r.code_end ≤ regs 15 &&& MASK_F := by
    rw [hr, mask_eq _ hlt]
    omega
  have hw : pc_dumpable r (regs 15 &&& MASK_F) = none := by
    unfold pc_dumpable
    rw [if_pos (Or.inl hm)]
  have hc : codeSection r mem regs = [] := by
    simp only [codeSection, hw]
  obtain ⟨rep, h1, _, h3, _⟩ := XRQ_DumpRegisters_eq r bld t mem fuel xrq regs hf
  refine ⟨hw, hc, rep, h1, ?_, stackSection_dump r mem fuel regs hf⟩
  rw [h3, hc, List.append_nil]

theorem scenario_B_witness :
    pc_dumpable ⟨0x08100000, 0x1000, 0x08000000, 0x08040000⟩ ((0x08040000 + 4) &&& MASK_F)
      = none
    ∧ codeSection ⟨0x08100000, 0x1000, 0x08000000, 0x08040000⟩ (fun a => a)
        (fun i => if i = 15 then 0x08040000 + 4 else if i = 13 then 0x080FFF80 else i) = []
    ∧ ∃ rep, XRQ_DumpRegisters ⟨0x08100000, 0x1000, 0x08000000, 0x08040000⟩
          ⟨"GodMode9".toList, "v2.1.1".toList, "0:/gm9/out".toList⟩
          ⟨0x24, 0x12, 0x31, 0x23, 0x59, 0x58⟩ (fun a => a) 9 4
          (fun i => if i = 15 then 0x08040000 + 4 else if i = 13 then 0x080FFF80 else i)
            = some rep
        ∧ rep.dumpstr = headerText ⟨"GodMode9".toList, "v2.1.1".toList, "0:/gm9/out".toList⟩
              ⟨0x24, 0x12, 0x31, 0x23, 0x59, 0x58⟩ 4
            ++ registerText
              (fun i => if i = 15 then 0x08040000 + 4 else if i = 13 then 0x080FFF80 else i)
            ++ stackSection ⟨0x08100000, 0x1000, 0x08000000, 0x08040000⟩ (fun a => a)
              (fun i => if i = 15 then 0x08040000 + 4 else if i = 13 then 0x080FFF80 else i)
        ∧ (match sp_dumpable ⟨0x08100000, 0x1000, 0x08000000, 0x08040000⟩
              (0x080FFF80 &&& MASK_F) with
            | none => stackSection ⟨0x08100000, 0x1000, 0x08000000, 0x08040000⟩ (fun a => a)
                (fun i => if i = 15 then 0x08040000 + 4 else if i = 13 then 0x080FFF80 else i)
                  = []
            | some (lo, hi) =>
              ∃ d, XRQ_DumpData_u8 (fun a => a) 9 lo hi = some d
                ∧ stackSection ⟨0x08100000, 0x1000, 0x08000000, 0x08040000⟩ (fun a => a)
                    (fun i =>
                      if i = 15 then 0x08040000 + 4 else if i = 13 then 0x080FFF80 else i)
                    = "Stack:\n".toList ++ d.out ++ ['\n']) :=
  scenario_B ⟨0x08100000, 0x1000, 0x08000000, 0x08040000⟩
    ⟨"GodMode9".toList, "v2.1.1".toList, "0:/gm9/out".toList⟩
    ⟨0x24, 0x12, 0x31, 0x23, 0x59, 0x58⟩ (fun a => a) 9 4
    (fun i => if i = 15 then 0x08040000 + 4 else if i = 13 then 0x080FFF80 else i)
    (by decide) (by decide) (by decide) (by decide)

lemma codeSection_congr (r : Regions) (mem : Memory) (regs regs' : Nat → Nat)
    (h15 : regs' 15 = regs 15) (h16 : (regs' 16).testBit 5 = (regs 16).testBit 5) :
    codeSection r mem regs' = codeSection r mem regs := by
  have hb : (regs' 16 &&& SR_THUMB ≠ 0) ↔ (regs 16 &&& SR_THUMB ≠ 0) := by
    rw [thumb_iff, thumb_iff, h16]
  unfold codeSection
  rw [h15]
  cases pc_dumpable r (regs 15 &&& MASK_F) with
  | none => rfl
  | some win =>
    obtain ⟨lo, hi⟩ := win
    by_cases hth : regs 16 &&& SR_THUMB ≠ 0
    · simp only [if_pos hth, if_pos (hb.mpr hth)]
    · simp only [if_neg hth, if_neg (fun h => hth (hb.mp h))]

/-- C13: for a fault whose code window `[lo, hi)` is present, the code section
of the report is the line `Code:` followed by one row per 16-byte step of the
window.  If `regs[16] & SR_THUMB` is nonzero every row holds the address and 8
words of 4 hexadecimal digits (16-bit words read at `start + 2 * i`); if it is
zero every row holds the address and 4 words of 8 hexadecimal digits (32-bit
words read at `start + 4 * i`).  `SR_THUMB` selects bit 5 alone, and two
register banks with the same R15 and the same bit 5 of the status word give
the same code section. -/
theorem scenario_C (r : Regions) (bld : Build) (t : DsTime) (mem : Memory)
    (fuel xrq : Nat) (regs : Nat → Nat) (lo hi : Nat)
    (hw : pc_dumpable r (regs 15 &&& MASK_F) = some (lo, hi)) (hf : 9 ≤ fuel) :
    (∃ rep, XRQ_DumpRegisters r bld t mem fuel xrq regs = some rep
        ∧ rep.dumpstr = headerText bld t xrq ++ registerText regs
            ++ stackSection r mem regs ++ codeSection r mem regs)
    ∧ (regs 16 &&& SR_THUMB ≠ 0 →
        XRQ_DumpData_u16 mem fuel lo hi = some ⟨dumpText 2 mem lo hi,
            (rowAddrs lo hi).flatMap (rowReads 2), rowAddrs lo hi⟩
        ∧ codeSection r mem regs = "Code:\n".toList ++ (rowAddrs lo hi).flatMap (fun start =>
            fixedHex 8 start ++ [':', ' ']
              ++ (List.range 8).flatMap (fun i =>
                  fixedHex 4 (readLE mem (start + i * 2) 2) ++ [' '])
              ++ ['\n']))
    ∧ (regs 16 &&& SR_THUMB = 0 →
        XRQ_DumpData_u32 mem fuel lo hi = some ⟨dumpText 4 mem lo hi,
            (rowAddrs lo hi).flatMap (rowReads 4), rowAddrs lo hi⟩
        ∧ codeSection r mem regs = "Code:\n".toList ++ (rowAddrs lo hi).flatMap (fun start =>
            fixedHex 8 start ++ [':', ' ']
              ++ (List.range 4).flatMap (fun i =>
                  fixedHex 8 (readLE mem (start + i * 4) 4) ++ [' '])
              ++ ['\n']))
    ∧ (regs 16 &&& SR_THUMB ≠ 0 ↔ (regs 16).testBit 5 = true)
    ∧ (∀ regs' : Nat → Nat, regs' 15 = regs 15 →
        (regs' 16).testBit 5 = (regs 16).testBit 5 →
        codeSection r mem regs' = codeSection r mem regs) := by
  obtain ⟨_, h2, _⟩ := pc_window_rows (mask_lt _) (mask_mod16 _) hw
  obtain ⟨rep, h1, _, h3, _⟩ := XRQ_DumpRegisters_eq r bld t mem fuel xrq regs hf
  refine ⟨⟨rep, h1, h3⟩, ?_, ?_, thumb_iff _, ?_⟩
  · intro hth
    refine ⟨XRQ_DUMPDATAFUNC_eq 2 mem fuel lo hi (by decide) h2 (by omega), ?_⟩
    simp only [codeSection, hw, if_pos hth]
    rfl
  · intro hth
    have hth' : ¬ (regs 16 &&& SR_THUMB ≠ 0) := fun h => h hth
    refine ⟨XRQ_DUMPDATAFUNC_eq 4 mem fuel lo hi (by decide) h2 (by omega), ?_⟩
    simp only [codeSection, hw, if_neg hth']
    rfl
  · intro regs' h15 h16
    exact codeSection_congr r mem regs regs' h15 h16

theorem scenario_C_witness :
    (XRQ_DumpData_u16 (fun a => a) 9 0x08000110 0x08000130
        = some ⟨dumpText 2 (fun a => a) 0x08000110 0x08000130,
            (rowAddrs 0x08000110 0x08000130).flatMap (rowReads 2),
            rowAddrs 0x08000110 0x08000130⟩
      ∧ codeSection ⟨0x08100000, 0x1000, 0x08000000, 0x08040000⟩ (fun a => a)
          (fun i => if i = 15 then 0x08000120 else if i = 16 then 0x3F else i)
        = "Code:\n".toList ++ (rowAddrs 0x08000110 0x08000130).flatMap (fun start =>
            fixedHex 8 start ++ [':', ' ']
              ++ (List.range 8).flatMap (fun i =>
                  fixedHex 4 (readLE (fun a => a) (start + i * 2) 2) ++ [' '])
              ++ ['\n']))
    ∧ (XRQ_DumpData_u32 (fun a => a) 9 0x08000110 0x08000130
        = some ⟨dumpText 4 (fun a => a) 0x08000110 0x08000130,
            (rowAddrs 0x08000110 0x08000130).flatMap (rowReads 4),
            rowAddrs 0x08000110 0x08000130⟩
      ∧ codeSection ⟨0x08100000, 0x1000, 0x08000000, 0x08040000⟩ (fun a => a)
          (fun i => if i = 15 then 0x08000120 else if i = 16 then 0x1F else i)
        = "Code:\n".toList ++ (rowAddrs 0x08000110 0x08000130).flatMap (fun start =>
            fixedHex 8 start ++ [':', ' ']
              ++ (List.range 4).flatMap (fun i =>
                  fixedHex 8 (readLE (fun a => a) (start + i * 4) 4) ++ [' '])
              ++ ['\n'])) :=
  ⟨(scenario_C ⟨0x08100000, 0x1000, 0x08000000, 0x08040000⟩
      ⟨"GodMode9".toList, "v2.1.1".toList, "0:/gm9/out".toList⟩
      ⟨0x24, 0x12, 0x31, 0x23, 0x59, 0x58⟩ (fun a => a) 9 4
      (fun i => if i = 15 then 0x08000120 else if i = 16 then 0x3F else i)
      0x08000110 0x08000130 (by decide) (by decide)).2.1 (by decide),
   (scenario_C ⟨0x08100000, 0x1000, 0x08000000, 0x08040000⟩
      ⟨"GodMode9".toList, "v2.1.1".toList, "0:/gm9/out".toList⟩
      ⟨0x24, 0x12, 0x31, 0x23, 0x59, 0x58⟩ (fun a => a) 9 4
      (fun i => if i = 15 then 0x08000120 else if i = 16 then 0x1F else i)
      0x08000110 0x08000130 (by decide) (by decide)).2.2.1 (by decide)⟩

/-! ## The code window away from the edges -/

/-- C14: when `pc_dumpable` returns a window and `pc` is at least `0x10` bytes
from both edges of the image, the window is exactly `[pc - 0x10, pc + 0x10)`.
In every case the lower bound is either the 32-bit difference `pc - 0x10` or
`code_start`, and the upper bound is either the 32-bit sum `pc + 0x10` or
`code_end`; without wrap-around these are the plain difference and sum. -/
theorem pc_dumpable_window_centered (r : Regions) (pc lo hi : Nat)
    (hend : r.code_end < U32) (h : pc_dumpable r pc = some (lo, hi)) :
    (r.code_start + PC_DUMPRAD ≤ pc → pc + PC_DUMPRAD ≤ r.code_end →
        lo = pc - PC_DUMPRAD ∧ hi = pc + PC_DUMPRAD
        ∧ pc - lo = PC_DUMPRAD ∧ hi - pc = PC_DUMPRAD)
    ∧ (lo ≠ u32sub pc PC_DUMPRAD → lo = r.code_start)
    ∧ (hi ≠ u32add pc PC_DUMPRAD → hi = r.code_end)
    ∧ (PC_DUMPRAD ≤ pc → lo ≠ pc - PC_DUMPRAD → lo = r.code_start)
    ∧ (pc + PC_DUMPRAD < U32 → hi ≠ pc + PC_DUMPRAD → hi = r.code_end) := by
  obtain ⟨h1, h2, h3, h4⟩ := pc_dumpable_eq_some h
  unfold u32add u32sub PC_DUMPRAD U32 at *
  refine ⟨?_, ?_, ?_, ?_, ?_⟩
  · intro ha hb
    omega
  · intro ha
    omega
  · intro ha
    omega
  · intro ha hb
    omega
  · intro ha hb
    omega

theorem pc_dumpable_window_centered_witness :
    (0x08000120 - PC_DUMPRAD = 0x08000120 - PC_DUMPRAD
      ∧ 0x08000120 + PC_DUMPRAD = 0x08000120 + PC_DUMPRAD
      ∧ 0x08000120 - (0x08000120 - PC_DUMPRAD) = PC_DUMPRAD
      ∧ 0x08000120 + PC_DUMPRAD - 0x08000120 = PC_DUMPRAD)
    ∧ 0x08000000 = 0x08000000
    ∧ 0x08000024 = 0x08000024 :=
  ⟨(pc_dumpable_window_centered ⟨0x08100000, 0x1000, 0x08000000, 0x08040000⟩
      0x08000120 (0x08000120 - PC_DUMPRAD) (0x08000120 + PC_DUMPRAD)
      (by decide) (by decide)).1 (by decide) (by decide),
   (pc_dumpable_window_centered ⟨0x08100000, 0x1000, 0x08000000, 0x08040000⟩
      0x08000008 0x08000000 0x08000018 (by decide) (by decide)).2.2.2.1
      (by decide) (by decide),
   (pc_dumpable_window_centered ⟨0x08100000, 0x1000, 0x08000000, 0x08000024⟩
      0x08000020 0x08000010 0x08000024 (by decide) (by decide)).2.2.2.2
      (by decide) (by decide)⟩

/-! ## Header and register section -/

lemma fmt_0lX_2_eq (x : Nat) : fmt_0lX 2 (u8 x) = fixedHex 2 (u8 x) := by
  have hx : u8 x < 16 ^ 2 := by
    unfold u8
    omega
  exact fmt_0lX_eq_fixedHex 2 (u8 x) (by norm_num) (by norm_num) hx

lemma fmt_bcd (b : Nat) (hb : validBCD b) : fmt_0lX 2 (u8 b) = bcdText b := by
  obtain ⟨h1, _, _⟩ := hb
  have hu : u8 b = b := by
    unfold u8
    omega
  have hd : b / 16 % 16 = b / 16 := by omega
  rw [fmt_0lX_2_eq, hu]
  simp only [fixedHex, bcdText, hd, List.nil_append, List.singleton_append]

lemma bcdText_eq_dec2 (b : Nat) (hb : validBCD b) : bcdText b = dec2 (bcdValue b) := by
  obtain ⟨_, h2, h3⟩ := hb
  have e1 : (10 * (b / 16) + b % 16) / 10 = b / 16 := by omega
  have e2 : (10 * (b / 16) + b % 16) % 10 = b % 16 := by omega
  simp only [bcdText, dec2, bcdValue, e1, e2]

lemma headerText_eq (bld : Build) (t : DsTime) (xrq : Nat) (hv : validTime t) :
    headerText bld t xrq
      = exceptionLine xrq ++ buildLine bld ++ timestampText t ++ "\n \n".toList := by
  obtain ⟨hY, hM, hD, hh, hm, hs⟩ := hv
  simp only [headerText, exceptionLine, buildLine, timestampText, fmt_bcd _ hY, fmt_bcd _ hM,
    fmt_bcd _ hD, fmt_bcd _ hh, fmt_bcd _ hm, fmt_bcd _ hs, List.append_assoc]

lemma digitChar_decimal (d : Nat) (h : d ≤ 9) : digitChar d ∈ "0123456789".toList := by
  interval_cases d <;> decide

/-- C15: for a time stamp whose six fields are valid BCD bytes, the report
starts with the exception line and the build line, followed by the time stamp
line `20YY-MM-DD HH:MM:SS` and the separator.  Each two-character group is
the tens digit and the units digit of its field, that is the field's value in
two decimal digits, and the time stamp always has 19 characters. -/
theorem timestamp_line (r : Regions) (bld : Build) (t : DsTime) (mem : Memory)
    (fuel xrq : Nat) (regs : Nat → Nat) (hv : validTime t) (hf : 9 ≤ fuel) :
    ∃ rep, XRQ_DumpRegisters r bld t mem fuel xrq regs = some rep
      ∧ rep.dumpstr = exceptionLine xrq ++ buildLine bld
          ++ ("20".toList ++ dec2 (bcdValue t.bcd_Y) ++ ['-'] ++ dec2 (bcdValue t.bcd_M)
              ++ ['-'] ++ dec2 (bcdValue t.bcd_D) ++ [' '] ++ dec2 (bcdValue t.bcd_h)
              ++ [':'] ++ dec2 (bcdValue t.bcd_m) ++ [':'] ++ dec2 (bcdValue t.bcd_s))
          ++ "\n \n".toList
          ++ registerText regs ++ stackSection r mem regs ++ codeSection r mem regs
      ∧ ("20".toList ++ dec2 (bcdValue t.bcd_Y) ++ ['-'] ++ dec2 (bcdValue t.bcd_M)
              ++ ['-'] ++ dec2 (bcdValue t.bcd_D) ++ [' '] ++ dec2 (bcdValue t.bcd_h)
              ++ [':'] ++ dec2 (bcdValue t.bcd_m) ++ [':'] ++ dec2 (bcdValue t.bcd_s)).length
          = 19
      ∧ (∀ b, validBCD b → dec2 (bcdValue b) = [digitChar (b / 16), digitChar (b % 16)]
          ∧ digitChar (b / 16) ∈ "0123456789".toList
          ∧ digitChar (b % 16) ∈ "0123456789".toList
          ∧ bcdValue b < 100) := by
  obtain ⟨rep, h1, _, h3, _⟩ := XRQ_DumpRegisters_eq r bld t mem fuel xrq regs hf
  have hv' := hv
  obtain ⟨hY, hM, hD, hh, hm, hs⟩ := hv'
  refine ⟨rep, h1, ?_, ?_, ?_⟩
  · rw [h3, headerText_eq bld t xrq hv]
    simp only [timestampText, bcdText_eq_dec2 _ hY, bcdText_eq_dec2 _ hM,
      bcdText_eq_dec2 _ hD, bcdText_eq_dec2 _ hh, bcdText_eq_dec2 _ hm, bcdText_eq_dec2 _ hs]
  · simp [dec2]
  · intro b hb
    refine ⟨(bcdText_eq_dec2 b hb).symm, digitChar_decimal _ hb.2.1, digitChar_decimal _ hb.2.2,
      ?_⟩
    obtain ⟨_, h2, h3'⟩ := hb
    unfold bcdValue
    omega

theorem timestamp_line_witness :
    ∃ rep, XRQ_DumpRegisters ⟨0x08100000, 0x1000, 0x08000000, 0x08040000⟩
        ⟨"GodMode9".toList, "v2.1.1".toList, "0:/gm9/out".toList⟩
        ⟨0x24, 0x12, 0x31, 0x23, 0x59, 0x58⟩ (fun a => a) 9 4 (fun i => i) = some rep
      ∧ rep.dumpstr = exceptionLine 4
          ++ buildLine ⟨"GodMode9".toList, "v2.1.1".toList, "0:/gm9/out".toList⟩
          ++ ("20".toList ++ dec2 (bcdValue 0x24) ++ ['-'] ++ dec2 (bcdValue 0x12)
              ++ ['-'] ++ dec2 (bcdValue 0x31) ++ [' '] ++ dec2 (bcdValue 0x23)
              ++ [':'] ++ dec2 (bcdValue 0x59) ++ [':'] ++ dec2 (bcdValue 0x58))
          ++ "\n \n".toList
          ++ registerText (fun i => i)
          ++ stackSection ⟨0x08100000, 0x1000, 0x08000000, 0x08040000⟩ (fun a => a)
              (fun i => i)
          ++ codeSection ⟨0x08100000, 0x1000, 0x08000000, 0x08040000⟩ (fun a => a)
              (fun i => i) :=
  Exists.elim
    (timestamp_line ⟨0x08100000, 0x1000, 0x08000000, 0x08040000⟩
      ⟨"GodMode9".toList, "v2.1.1".toList, "0:/gm9/out".toList⟩
      ⟨0x24, 0x12, 0x31, 0x23, 0x59, 0x58⟩ (fun a => a) 9 4 (fun i => i)
      (by decide) (by decide))
    (fun rep h => ⟨rep, h.1, h.2.1⟩)

lemma fmt_02d_eq_dec2 (i : Nat) (h : i < 16) : fmt_02d i = dec2 i := by
  interval_cases i <;> decide

lemma registerLine_eq (regs : Nat → Nat) (j : Nat) (hj : j < 8) :
    registerLine regs j = registerRow regs j := by
  have e1 : ": ".toList = [':', ' '] := by decide
  have e2 : " | R".toList = [' ', '|', ' ', 'R'] := by decide
  simp only [registerLine, registerRow, fmt_02d_eq_dec2 (2 * j) (by omega),
    fmt_02d_eq_dec2 (2 * j + 1) (by omega), fmt_0lX_8, e1, e2]

lemma registerText_eq (regs : Nat → Nat) :
    registerText regs = (List.range 8).flatMap (registerRow regs) ++ statusRow regs := by
  have hr : List.range 8 = [0, 1, 2, 3, 4, 5, 6, 7] := by decide
  have e1 : "\n\n".toList = ['\n', '\n'] := by decide
  simp only [registerText, statusRow, hr, List.flatMap_cons, List.flatMap_nil,
    registerLine_eq regs 0 (by norm_num), registerLine_eq regs 1 (by norm_num),
    registerLine_eq regs 2 (by norm_num), registerLine_eq regs 3 (by norm_num),
    registerLine_eq regs 4 (by norm_num), registerLine_eq regs 5 (by norm_num),
    registerLine_eq regs 6 (by norm_num), registerLine_eq regs 7 (by norm_num),
    fmt_0lX_8, e1, List.append_assoc]

/-- C16: after the header the report holds the register section: for
`j = 0, ..., 7` one line `R(2j): <value> | R(2j+1): <value>` with the register
numbers in two decimal digits (`R00` to `R15`) and each value in exactly 8
hexadecimal digits, then the line `CPSR: <regs[16]>` and an empty line.  The
registers shown are, in order, the indices `0, 1, ..., 16`, each once. -/
theorem register_section (r : Regions) (bld : Build) (t : DsTime) (mem : Memory)
    (fuel xrq : Nat) (regs : Nat → Nat) (hf : 9 ≤ fuel) :
    ∃ rep, XRQ_DumpRegisters r bld t mem fuel xrq regs = some rep
      ∧ rep.dumpstr = headerText bld t xrq
          ++ ((List.range 8).flatMap (fun j =>
                ['R'] ++ dec2 (2 * j) ++ [':', ' '] ++ fixedHex 8 (regs (2 * j) % U32)
                  ++ [' ', '|', ' ', 'R'] ++ dec2 (2 * j + 1) ++ [':', ' ']
                  ++ fixedHex 8 (regs (2 * j + 1) % U32) ++ ['\n'])
              ++ ("CPSR: ".toList ++ fixedHex 8 (regs 16 % U32) ++ ['\n', '\n']))
          ++ stackSection r mem regs ++ codeSection r mem regs
      ∧ (List.range 8).flatMap (fun j => [2 * j, 2 * j + 1]) ++ [16] = List.range 17
      ∧ (∀ j, j < 8 → dec2 (2 * j) = fmt_02d (2 * j) ∧ dec2 (2 * j + 1) = fmt_02d (2 * j + 1))
      ∧ (∀ v, (fixedHex 8 v).length = 8
          ∧ ∀ c ∈ fixedHex 8 v, c ∈ "0123456789ABCDEF".toList) := by
  obtain ⟨rep, h1, _, h3, _⟩ := XRQ_DumpRegisters_eq r bld t mem fuel xrq regs hf
  refine ⟨rep, h1, ?_, by decide, ?_, ?_⟩
  · rw [h3, registerText_eq]
    rfl
  · intro j hj
    exact ⟨(fmt_02d_eq_dec2 _ (by omega)).symm, (fmt_02d_eq_dec2 _ (by omega)).symm⟩
  · exact fun v => ⟨fixedHex_length 8 v, fixedHex_chars 8 v⟩

theorem register_section_witness :
    ∃ rep, XRQ_DumpRegisters ⟨0x08100000, 0x1000, 0x08000000, 0x08040000⟩
        ⟨"GodMode9".toList, "v2.1.1".toList, "0:/gm9/out".toList⟩
        ⟨0x24, 0x12, 0x31, 0x23, 0x59, 0x58⟩ (fun a => a) 9 4 (fun i => 0x1111111 * i)
          = some rep
      ∧ rep.dumpstr = headerText ⟨"GodMode9".toList, "v2.1.1".toList, "0:/gm9/out".toList⟩
            ⟨0x24, 0x12, 0x31, 0x23, 0x59, 0x58⟩ 4
          ++ ((List.range 8).flatMap (fun j =>
                ['R'] ++ dec2 (2 * j) ++ [':', ' ']
                  ++ fixedHex 8 ((fun i => 0x1111111 * i) (2 * j) % U32)
                  ++ [' ', '|', ' ', 'R'] ++ dec2 (2 * j + 1) ++ [':', ' ']
                  ++ fixedHex 8 ((fun i => 0x1111111 * i) (2 * j + 1) % U32) ++ ['\n'])
              ++ ("CPSR: ".toList ++ fixedHex 8 ((fun i => 0x1111111 * i) 16 % U32)
                  ++ ['\n', '\n']))
          ++ stackSection ⟨0x08100000, 0x1000, 0x08000000, 0x08040000⟩ (fun a => a)
              (fun i => 0x1111111 * i)
          ++ codeSection ⟨0x08100000, 0x1000, 0x08000000, 0x08040000⟩ (fun a => a)
              (fun i => 0x1111111 * i) :=
  Exists.elim
    (register_section ⟨0x08100000, 0x1000, 0x08000000, 0x08040000⟩
      ⟨"GodMode9".toList, "v2.1.1".toList, "0:/gm9/out".toList⟩
      ⟨0x24, 0x12, 0x31, 0x23, 0x59, 0x58⟩ (fun a => a) 9 4 (fun i => 0x1111111 * i)
      (by decide))
    (fun rep h => ⟨rep, h.1, h.2.1⟩)

/-! ## The file name -/

lemma XRQ_DumpRegisters_path (r : Regions) (bld : Build) (t : DsTime) (mem : Memory)
    (fuel xrq : Nat) (regs : Nat → Nat) (hf : 9 ≤ fuel) :
    ∃ rep, XRQ_DumpRegisters r bld t mem fuel xrq regs = some rep
      ∧ rep.path = (pathText bld.OUTPUT_PATH t).take 63 := by
  obtain ⟨rd1, h1⟩ := dumpStack_eq r mem fuel regs (dumpHeader bld t xrq regs) [] hf
  obtain ⟨rd2, h2⟩ := dumpCode_eq r mem fuel regs
    (dumpHeader bld t xrq regs ++ stackSection r mem regs) rd1 (by omega)
  simp only [XRQ_DumpRegisters, h1, h2]
  refine ⟨_, rfl, ?_⟩
  simp only [pathText, fmt_0lX_2_eq]

lemma pathText_length (out : List Char) (t : DsTime) :
    (pathText out t).length = out.length + 32 := by
  have e1 : "/exception_dump_".toList.length = 16 := by decide
  have e2 : ".txt".toList.length = 4 := by decide
  simp only [pathText, List.length_append, fixedHex_length, e1, e2]

/-- C17: for an output directory name of at most 31 characters the file name
handed to `FileSetData` is the directory name, `/exception_dump_`, the six
time stamp fields year, month, day, hour, minute, second in two hexadecimal
digits each, and `.txt`; nothing is cut off by the 64-byte buffer.  Any other
fault handled with the same directory name and time stamp (other registers,
exception index, memory, region bounds or build strings) yields the same file
name. -/
theorem path_deterministic (r : Regions) (bld : Build) (t : DsTime) (mem : Memory)
    (fuel xrq : Nat) (regs : Nat → Nat)
    (hlen : bld.OUTPUT_PATH.length ≤ 31) (hf : 9 ≤ fuel) :
    ∃ rep, XRQ_DumpRegisters r bld t mem fuel xrq regs = some rep
      ∧ rep.path = bld.OUTPUT_PATH ++ "/exception_dump_".toList
          ++ fixedHex 2 (t.bcd_Y % 256) ++ fixedHex 2 (t.bcd_M % 256)
          ++ fixedHex 2 (t.bcd_D % 256) ++ fixedHex 2 (t.bcd_h % 256)
          ++ fixedHex 2 (t.bcd_m % 256) ++ fixedHex 2 (t.bcd_s % 256)
          ++ ".txt".toList
      ∧ rep.path.length = bld.OUTPUT_PATH.length + 32
      ∧ rep.path.length + 1 ≤ 64
      ∧ (∀ (r2 : Regions) (flavor2 version2 : List Char) (mem2 : Memory)
          (fuel2 xrq2 : Nat) (regs2 : Nat → Nat), 9 ≤ fuel2 →
          ∃ rep2, XRQ_DumpRegisters r2 ⟨flavor2, version2, bld.OUTPUT_PATH⟩ t mem2 fuel2
              xrq2 regs2 = some rep2
            ∧ rep2.path = rep.path) := by
  obtain ⟨rep, h1, h2⟩ := XRQ_DumpRegisters_path r bld t mem fuel xrq regs hf
  have hl := pathText_length bld.OUTPUT_PATH t
  have ht : (pathText bld.OUTPUT_PATH t).take 63 = pathText bld.OUTPUT_PATH t :=
    List.take_of_length_le (by omega)
  rw [ht] at h2
  refine ⟨rep, h1, ?_, ?_, ?_, ?_⟩
  · rw [h2]
    rfl
  · rw [h2, hl]
  · rw [h2, hl]
    omega
  · intro r2 flavor2 version2 mem2 fuel2 xrq2 regs2 hf2
    obtain ⟨rep2, k1, k2⟩ := XRQ_DumpRegisters_path r2 ⟨flavor2, version2, bld.OUTPUT_PATH⟩
      t mem2 fuel2 xrq2 regs2 hf2
    refine ⟨rep2, k1, ?_⟩
    rw [k2, h2]
    exact ht

theorem path_deterministic_witness :
    ∃ rep, XRQ_DumpRegisters ⟨0x08100000, 0x1000, 0x08000000, 0x08040000⟩
        ⟨"GodMode9".toList, "v2.1.1".toList, "0:/gm9/out".toList⟩
        ⟨0x24, 0x12, 0x31, 0x23, 0x59, 0x58⟩ (fun a => a) 9 4 (fun i => i) = some rep
      ∧ rep.path = "0:/gm9/out".toList ++ "/exception_dump_".toList
          ++ fixedHex 2 (0x24 % 256) ++ fixedHex 2 (0x12 % 256)
          ++ fixedHex 2 (0x31 % 256) ++ fixedHex 2 (0x23 % 256)
          ++ fixedHex 2 (0x59 % 256) ++ fixedHex 2 (0x58 % 256)
          ++ ".txt".toList
      ∧ rep.path.length = "0:/gm9/out".toList.length + 32 :=
  Exists.elim
    (path_deterministic ⟨0x08100000, 0x1000, 0x08000000, 0x08040000⟩
      ⟨"GodMode9".toList, "v2.1.1".toList, "0:/gm9/out".toList⟩
      ⟨0x24, 0x12, 0x31, 0x23, 0x59, 0x58⟩ (fun a => a) 9 4 (fun i => i)
      (by decide) (by decide))
    (fun rep h => ⟨rep, h.1, h.2.1, h.2.2.1⟩)

/-! ## The exception line -/

lemma digitsAux_eq_decimalDigits :
    ∀ (fuel n : Nat), n < 10 ^ fuel → 0 < fuel → digitsAux 10 fuel n = decimalDigits n := by
  intro fuel
  induction fuel with
  | zero => intro n _ h; omega
  | succ fuel ih =>
    intro n hn _
    unfold digitsAux
    split_ifs with hlt
    · unfold decimalDigits
      split_ifs with h0
      · rw [h0]
      · rw [Nat.digits_of_lt 10 n h0 hlt]
        rfl
    · have hpos : 0 < fuel := by
        rcases Nat.eq_zero_or_pos fuel with h0 | h0
        · subst h0
          simp at hn
          omega
        · exact h0
      have hdiv : n / 10 < 10 ^ fuel := by
        apply Nat.div_lt_of_lt_mul
        rw [pow_succ] at hn
        rw [Nat.mul_comm]
        exact hn
      have hne : n / 10 ≠ 0 := by omega
      have hn0 : n ≠ 0 := by omega
      rw [ih (n / 10) hdiv hpos]
      unfold decimalDigits
      have hd : Nat.digits 10 n = n % 10 :: Nat.digits 10 (n / 10) :=
        Nat.digits_def' (by norm_num) (by omega)
      rw [if_neg hne, if_neg hn0, hd, List.reverse_cons]

lemma fmt_lu_eq (n : Nat) (hn : n < U32) : fmt_lu n = (decimalDigits n).map digitChar := by
  unfold fmt_lu
  rw [Nat.mod_eq_of_lt hn, digitsAux_eq_decimalDigits 32 n _ (by norm_num)]
  unfold U32 at hn
  calc n < 2 ^ 32 := hn
    _ ≤ 10 ^ 32 := by norm_num

lemma name_index (xrq : Nat) : xrq &&& 7 = xrq % 8 := by
  have h := Nat.and_pow_two_sub_one_eq_mod xrq 3
  norm_num at h
  exact h

/-- C18: for a 32-bit exception index `xrq` the table index `xrq & 7` is
`xrq mod 8` and lies inside the 8-entry table `XRQ_Name`, the name shown is
that entry, two indices with the same remainder modulo 8 show the same name,
and the report starts with `Exception: <name> (<code>)` where the code is the
decimal representation of the whole of `xrq`, whose digits give back `xrq`. -/
theorem exception_name (r : Regions) (bld : Build) (t : DsTime) (mem : Memory)
    (fuel xrq : Nat) (regs : Nat → Nat) (hx : xrq < U32) (hf : 9 ≤ fuel) :
    xrq &&& 7 = xrq % 8
    ∧ xrq &&& 7 < XRQ_Name.length
    ∧ XRQ_Name[xrq % 8]? = some (XRQ_Name.getD (xrq &&& 7) [])
    ∧ XRQ_Name = ["Reset".toList, "Undefined".toList, "SWI".toList,
        "Prefetch Abort".toList, "Data Abort".toList, "Reserved".toList, "IRQ".toList,
        "FIQ".toList]
    ∧ (∀ xrq2, xrq2 % 8 = xrq % 8 →
        XRQ_Name.getD (xrq2 &&& 7) [] = XRQ_Name.getD (xrq &&& 7) [])
    ∧ (∃ rep rest, XRQ_DumpRegisters r bld t mem fuel xrq regs = some rep
        ∧ rep.dumpstr = "Exception: ".toList ++ (XRQ_Name.getD (xrq &&& 7) [] ++ (" (".toList
            ++ ((decimalDigits xrq).map digitChar ++ (")\n".toList ++ rest)))))
    ∧ Nat.ofDigits 10 (decimalDigits xrq).reverse = xrq
    ∧ (∀ d ∈ decimalDigits xrq, d < 10) := by
  have hi := name_index xrq
  have hlt : xrq % 8 < 8 := Nat.mod_lt _ (by norm_num)
  refine ⟨hi, ?_, ?_, rfl, ?_, ?_, ?_, ?_⟩
  · rw [hi]
    exact hlt
  · rw [hi]
    generalize xrq % 8 = i at hlt
    interval_cases i <;> rfl
  · intro xrq2 h2
    rw [name_index xrq2, hi, h2]
  · obtain ⟨rep, h1, _, h3, _⟩ := XRQ_DumpRegisters_eq r bld t mem fuel xrq regs hf
    simp only [headerText, fmt_lu_eq xrq hx, List.append_assoc] at h3
    exact ⟨rep, _, h1, h3⟩
  · unfold decimalDigits
    split_ifs with h0
    · rw [h0]
      rfl
    · rw [List.reverse_reverse, Nat.ofDigits_digits]
  · intro d hd
    unfold decimalDigits at hd
    split_ifs at hd with h0
    · simp only [List.mem_singleton] at hd
      omega
    · rw [List.mem_reverse] at hd
      exact Nat.digits_lt_base (by norm_num) hd

theorem exception_name_witness :
    0x104 &&& 7 = 0x104 % 8
    ∧ 0x104 &&& 7 < XRQ_Name.length
    ∧ XRQ_Name[0x104 % 8]? = some (XRQ_Name.getD (0x104 &&& 7) [])
    ∧ Nat.ofDigits 10 (decimalDigits 0x104).reverse = 0x104 :=
  ⟨(exception_name ⟨0x08100000, 0x1000, 0x08000000, 0x08040000⟩
      ⟨"GodMode9".toList, "v2.1.1".toList, "0:/gm9/out".toList⟩
      ⟨0x24, 0x12, 0x31, 0x23, 0x59, 0x58⟩ (fun a => a) 9 0x104 (fun i => i)
      (by decide) (by decide)).1,
   (exception_name ⟨0x08100000, 0x1000, 0x08000000, 0x08040000⟩
      ⟨"GodMode9".toList, "v2.1.1".toList, "0:/gm9/out".toList⟩
      ⟨0x24, 0x12, 0x31, 0x23, 0x59, 0x58⟩ (fun a => a) 9 0x104 (fun i => i)
      (by decide) (by decide)).2.1,
   (exception_name ⟨0x08100000, 0x1000, 0x08000000, 0x08040000⟩
      ⟨"GodMode9".toList, "v2.1.1".toList, "0:/gm9/out".toList⟩
      ⟨0x24, 0x12, 0x31, 0x23, 0x59, 0x58⟩ (fun a => a) 9 0x104 (fun i => i)
      (by decide) (by decide)).2.2.1,
   (exception_name ⟨0x08100000, 0x1000, 0x08000000, 0x08040000⟩
      ⟨"GodMode9".toList, "v2.1.1".toList, "0:/gm9/out".toList⟩
      ⟨0x24, 0x12, 0x31, 0x23, 0x59, 0x58⟩ (fun a => a) 9 0x104 (fun i => i)
      (by decide) (by decide)).2.2.2.2.2.2.1⟩

/-! ## Display, storage and termination -/

/-- C19: the text drawn on the main screen is the header followed by the
register section and nothing else; it does not depend on memory or on the
region bounds.  It is a prefix of the final report, which continues with the
stack section and the code section, and the length handed to `FileSetData`
is the number of characters of the final report (the terminating NUL is not
counted). -/
theorem screen_starts_report (r : Regions) (bld : Build) (t : DsTime) (mem : Memory)
    (fuel xrq : Nat) (regs : Nat → Nat) (hf : 9 ≤ fuel) :
    ∃ rep, XRQ_DumpRegisters r bld t mem fuel xrq regs = some rep
      ∧ rep.screen = headerText bld t xrq ++ registerText regs
      ∧ rep.dumpstr = rep.screen ++ (stackSection r mem regs ++ codeSection r mem regs)
      ∧ rep.screen <+: rep.dumpstr
      ∧ rep.written = rep.dumpstr.length
      ∧ (∀ (r2 : Regions) (mem2 : Memory) (fuel2 : Nat), 9 ≤ fuel2 →
          ∃ rep2, XRQ_DumpRegisters r2 bld t mem2 fuel2 xrq regs = some rep2
            ∧ rep2.screen = rep.screen) := by
  obtain ⟨rep, h1, h2, h3, h4⟩ := XRQ_DumpRegisters_eq r bld t mem fuel xrq regs hf
  have h5 : rep.dumpstr = rep.screen ++ (stackSection r mem regs ++ codeSection r mem regs) := by
    rw [h3, h2, List.append_assoc]
  refine ⟨rep, h1, h2, h5, ?_, h4, ?_⟩
  · rw [h5]
    exact List.prefix_append _ _
  · intro r2 mem2 fuel2 hf2
    obtain ⟨rep2, k1, k2, _, _⟩ := XRQ_DumpRegisters_eq r2 bld t mem2 fuel2 xrq regs hf2
    exact ⟨rep2, k1, by rw [k2, h2]⟩

theorem screen_starts_report_witness :
    ∃ rep, XRQ_DumpRegisters ⟨0x08100000, 0x1000, 0x08000000, 0x08040000⟩
        ⟨"GodMode9".toList, "v2.1.1".toList, "0:/gm9/out".toList⟩
        ⟨0x24, 0x12, 0x31, 0x23, 0x59, 0x58⟩ (fun a => a) 9 4
        (fun i => if i = 13 then 0x080FFF80 else if i = 15 then 0x08000120 else i) = some rep
      ∧ rep.screen <+: rep.dumpstr
      ∧ rep.written = rep.dumpstr.length :=
  Exists.elim
    (screen_starts_report ⟨0x08100000, 0x1000, 0x08000000, 0x08040000⟩
      ⟨"GodMode9".toList, "v2.1.1".toList, "0:/gm9/out".toList⟩
      ⟨0x24, 0x12, 0x31, 0x23, 0x59, 0x58⟩ (fun a => a) 9 4
      (fun i => if i = 13 then 0x080FFF80 else if i = 15 then 0x08000120 else i)
      (by decide))
    (fun rep h => ⟨rep, h.1, h.2.2.2.1, h.2.2.2.2.1⟩)

lemma window_dump_bounded (tsize : Nat) (mem : Memory) (fuel lo hi bound : Nat)
    (ht : tsize = 1 ∨ tsize = 2 ∨ tsize = 4)
    (hw : lo + 16 * rowCount lo hi < U32) (hb : rowCount lo hi ≤ bound) (hf : bound < fuel) :
    ∃ d, XRQ_DUMPDATAFUNC tsize (2 * tsize) mem fuel lo hi = some d
      ∧ d.rows.length ≤ bound
      ∧ ∀ s ∈ d.rows, s < hi ∧ s + 16 < U32 ∧ u32add s 16 = s + 16 := by
  refine ⟨_, XRQ_DUMPDATAFUNC_eq tsize mem fuel lo hi ht hw (by omega), ?_, ?_⟩
  · simp only [rowAddrs_length]
    exact hb
  · intro s hs
    simp only [rowAddrs, List.mem_map, List.mem_range] at hs
    obtain ⟨k, hk, rfl⟩ := hs
    have h1 : lo + 16 * k + 16 < U32 := by omega
    refine ⟨?_, h1, u32add_of_lt h1⟩
    unfold rowCount at hk
    omega

/-- C20: for every R13, R15 and status word and for all region bounds, each
dump loop run by `XRQ_DumpRegisters` ends: the byte dumper returns after at
most 8 rows on the stack window, the 16-bit or 32-bit dumper returns after at
most 2 rows on the code window, every row starts below the window's upper
bound, the update `s += 16` of every row stays below `2 ^ 32` (it does not
wrap), and `XRQ_DumpRegisters` reaches the end of the report. -/
theorem dump_loops_terminate (r : Regions) (bld : Build) (t : DsTime) (mem : Memory)
    (fuel xrq : Nat) (regs : Nat → Nat) (hf : 9 ≤ fuel) :
    (match sp_dumpable r (regs 13 &&& MASK_F) with
      | none => True
      | some (lo, hi) =>
        ∃ d, XRQ_DumpData_u8 mem fuel lo hi = some d
          ∧ d.rows.length ≤ 8
          ∧ ∀ s ∈ d.rows, s < hi ∧ s + 16 < U32 ∧ u32add s 16 = s + 16)
    ∧ (match pc_dumpable r (regs 15 &&& MASK_F) with
      | none => True
      | some (lo, hi) =>
        ∃ d, (if regs 16 &&& SR_THUMB ≠ 0 then XRQ_DumpData_u16 mem fuel lo hi
              else XRQ_DumpData_u32 mem fuel lo hi) = some d
          ∧ d.rows.length ≤ 2
          ∧ ∀ s ∈ d.rows, s < hi ∧ s + 16 < U32 ∧ u32add s 16 = s + 16)
    ∧ ∃ rep, XRQ_DumpRegisters r bld t mem fuel xrq regs = some rep := by
  refine ⟨?_, ?_, ?_⟩
  · cases hw : sp_dumpable r (regs 13 &&& MASK_F) with
    | none => trivial
    | some win =>
      obtain ⟨lo, hi⟩ := win
      obtain ⟨_, h2, h3⟩ := sp_window_rows (mask_lt _) hw
      obtain ⟨d, hd, hn, hs⟩ := window_dump_bounded 1 mem fuel lo hi 8 (by decide) h2 h3
        (by omega)
      exact ⟨d, hd, hn, hs⟩
  · cases hw : pc_dumpable r (regs 15 &&& MASK_F) with
    | none => trivial
    | some win =>
      obtain ⟨lo, hi⟩ := win
      obtain ⟨_, h2, h3⟩ := pc_window_rows (mask_lt _) (mask_mod16 _) hw
      by_cases hth : regs 16 &&& SR_THUMB ≠ 0
      · obtain ⟨d, hd, hn, hs⟩ := window_dump_bounded 2 mem fuel lo hi 2 (by decide) h2 h3
          (by omega)
        refine ⟨d, ?_, hn, hs⟩
        simp only [if_pos hth]
        exact hd
      · obtain ⟨d, hd, hn, hs⟩ := window_dump_bounded 4 mem fuel lo hi 2 (by decide) h2 h3
          (by omega)
        refine ⟨d, ?_, hn, hs⟩
        simp only [if_neg hth]
        exact hd
  · obtain ⟨rep, h1, _⟩ := XRQ_DumpRegisters_eq r bld t mem fuel xrq regs hf
    exact ⟨rep, h1⟩

theorem dump_loops_terminate_witness :
    (match sp_dumpable ⟨0x08100000, 0x1000, 0x08000000, 0x08000024⟩
        ((fun i => if i = 13 then 0x080FFF88 else if i = 15 then 0x08000020 else i) 13
          &&& MASK_F) with
      | none => True
      | some (lo, hi) =>
        ∃ d, XRQ_DumpData_u8 (fun a => a) 9 lo hi = some d
          ∧ d.rows.length ≤ 8
          ∧ ∀ s ∈ d.rows, s < hi ∧ s + 16 < U32 ∧ u32add s 16 = s + 16)
    ∧ (match pc_dumpable ⟨0x08100000, 0x1000, 0x08000000, 0x08000024⟩
        ((fun i => if i = 13 then 0x080FFF88 else if i = 15 then 0x08000020 else i) 15
          &&& MASK_F) with
      | none => True
      | some (lo, hi) =>
        ∃ d, (if (fun i => if i = 13 then 0x080FFF88 else if i = 15 then 0x08000020 else i) 16
                &&& SR_THUMB ≠ 0
              then XRQ_DumpData_u16 (fun a => a) 9 lo hi
              else XRQ_DumpData_u32 (fun a => a) 9 lo hi) = some d
          ∧ d.rows.length ≤ 2
          ∧ ∀ s ∈ d.rows, s < hi ∧ s + 16 < U32 ∧ u32add s 16 = s + 16)
    ∧ ∃ rep, XRQ_DumpRegisters ⟨0x08100000, 0x1000, 0x08000000, 0x08000024⟩
        ⟨"GodMode9".toList, "v2.1.1".toList, "0:/gm9/out".toList⟩
        ⟨0x24, 0x12, 0x31, 0x23, 0x59, 0x58⟩ (fun a => a) 9 4
        (fun i => if i = 13 then 0x080FFF88 else if i = 15 then 0x08000020 else i) = some rep :=
  dump_loops_terminate ⟨0x08100000, 0x1000, 0x08000000, 0x08000024⟩
    ⟨"GodMode9".toList, "v2.1.1".toList, "0:/gm9/out".toList⟩
    ⟨0x24, 0x12, 0x31, 0x23, 0x59, 0x58⟩ (fun a => a) 9 4
    (fun i => if i = 13 then 0x080FFF88 else if i = 15 then 0x08000020 else i)
    (by decide)

end XRQ
